import Mathlib

/-!
Verification of the multipart/form-data decoder and surrounding handler logic
of the repository's `lambda_function.py`, and of the user-upsert logic of
`database/update_users.py`.

Python values are embedded as follows: `str` becomes `List Char` (a Python
string is a sequence of Unicode code points), `bytes` becomes `List Nat`
(each element a byte value), `dict` becomes an insertion-ordered association
list whose assignment operation overwrites in place, `None`/optional values
become `Option`, and a function that can raise becomes `Except`.
-/

/-- Embedding of a Python `str` as its list of code points. -/
abbrev PyStr := List Char

/-- Code points of a Lean string literal, used to write `PyStr` constants. -/
def sLit (s : String) : PyStr := s.data

namespace PyOps

/-- Characters stripped by Python's `str.strip()` with no argument:
whitespace code points (ASCII whitespace, the ASCII separator controls,
NEL, and the Unicode space characters). -/
def isPySpace (c : Char) : Bool :=
  c = ' ' || c = '\t' || c = '\n' || c = '\r' ||
  c.toNat = 0x0b || c.toNat = 0x0c ||
  (0x1c ≤ c.toNat && c.toNat ≤ 0x1f) || c.toNat = 0x85 || c.toNat = 0xa0 ||
  c.toNat = 0x1680 || (0x2000 ≤ c.toNat && c.toNat ≤ 0x200a) ||
  c.toNat = 0x2028 || c.toNat = 0x2029 || c.toNat = 0x205f || c.toNat = 0x3000

/-- Byte values stripped by Python's `bytes.strip()` with no argument. -/
def isSpaceByte (b : Nat) : Bool :=
  b = 0x20 || b = 0x09 || b = 0x0a || b = 0x0d || b = 0x0b || b = 0x0c

/-- Byte values of the argument `b'\r\n--'` of `bytes.rstrip` at lines 122
and 128 of `lambda_function.py` (an rstrip argument is a set of bytes). -/
def isCRLFDashByte (b : Nat) : Bool :=
  b = 0x0d || b = 0x0a || b = 0x2d

/-- Drop elements satisfying `p` from the right end (Python `rstrip`). -/
def rstripP {α : Type} (p : α → Bool) (xs : List α) : List α :=
  (xs.reverse.dropWhile p).reverse

/-- Drop elements satisfying `p` from both ends (Python `strip`). -/
def stripP {α : Type} (p : α → Bool) (xs : List α) : List α :=
  rstripP p (xs.dropWhile p)

/-- Python `str.strip()` with no argument. -/
def pyStrip (s : PyStr) : PyStr := stripP isPySpace s

/-- Python `bytes.strip()` with no argument. -/
def bstrip (xs : List Nat) : List Nat := stripP isSpaceByte xs

/-- Python `s.strip('"')`: double quotes removed from both ends. -/
def stripQuotes (s : PyStr) : PyStr := stripP (fun c => c = '"') s

/-- Python `str.lower()` restricted to ASCII letters (the header names the
decoder lowercases are ASCII). -/
def pyLower (s : PyStr) : PyStr := s.map Char.toLower

/-- Python `xs.split(sep, 1)` when `sep` occurs in `xs`: the pieces before
and after the first occurrence of `sep`; `none` when `sep` does not occur. -/
def splitFirst {α : Type} [DecidableEq α] (sep : List α) :
    List α → Option (List α × List α)
  | [] => none
  | x :: rest =>
    if sep ≠ [] ∧ sep.isPrefixOf (x :: rest) then
      some ([], (x :: rest).drop sep.length)
    else
      match splitFirst sep rest with
      | some (pre, post) => some (x :: pre, post)
      | none => none

/-- Python `sep in xs` for a non-empty separator. -/
def hasSub {α : Type} [DecidableEq α] (sep xs : List α) : Bool :=
  (splitFirst sep xs).isSome

/-- Fuel-driven worker for `pySplit`; with fuel above the list length it
computes Python's `xs.split(sep)` for a non-empty `sep`. -/
def splitGo {α : Type} [DecidableEq α] (sep : List α) :
    Nat → List α → List (List α)
  | _, [] => [[]]
  | 0, x :: rest => [x :: rest]
  | fuel + 1, x :: rest =>
    if sep ≠ [] ∧ sep.isPrefixOf (x :: rest) then
      [] :: splitGo sep fuel ((x :: rest).drop sep.length)
    else
      match splitGo sep fuel rest with
      | [] => [[x]]
      | y :: ys => (x :: y) :: ys

/-- Python `xs.split(sep)` for a non-empty separator: splits on each
non-overlapping occurrence of `sep`, keeping empty pieces. -/
def pySplit {α : Type} [DecidableEq α] (sep xs : List α) : List (List α) :=
  splitGo sep (xs.length + 1) xs

/-- Python dict assignment `d[k] = v`: overwrite in place, else append. -/
def dictSet {β : Type} (d : List (PyStr × β)) (k : PyStr) (v : β) :
    List (PyStr × β) :=
  match d with
  | [] => [(k, v)]
  | (k', v') :: rest =>
    if k' = k then (k, v) :: rest else (k', v') :: dictSet rest k v

/-- Python `d.get(k)` on the association-list embedding of a dict. -/
def dictGet {β : Type} (d : List (PyStr × β)) (k : PyStr) : Option β :=
  match d with
  | [] => none
  | (k', v') :: rest => if k' = k then some v' else dictGet rest k

/-- Python `d.get(k, dflt)`. -/
def dictGetD {β : Type} (d : List (PyStr × β)) (k : PyStr) (dflt : β) : β :=
  (dictGet d k).getD dflt

end PyOps

namespace Utf8

/-- UTF-8 encoding of one Unicode code point, as Python's `str.encode` emits
it for each character of a string. -/
def encodeChar (c : Char) : List Nat :=
  if c.toNat < 0x80 then [c.toNat]
  else if c.toNat < 0x800 then [0xc0 + c.toNat / 0x40, 0x80 + c.toNat % 0x40]
  else if c.toNat < 0x10000 then
    [0xe0 + c.toNat / 0x1000, 0x80 + (c.toNat / 0x40) % 0x40, 0x80 + c.toNat % 0x40]
  else
    [0xf0 + c.toNat / 0x40000, 0x80 + (c.toNat / 0x1000) % 0x40,
     0x80 + (c.toNat / 0x40) % 0x40, 0x80 + c.toNat % 0x40]

/-- Python `s.encode('utf-8')`. -/
def encodePy (s : PyStr) : List Nat := s.flatMap encodeChar

/-- Decode one well-formed UTF-8 sequence from the front of a byte list,
returning the code point and the remaining bytes, with exactly the sequences
Python's UTF-8 codec accepts (no overlong forms, no surrogates). -/
def decodeOne : List Nat → Option (Nat × List Nat)
  | [] => none
  | b0 :: r =>
    if b0 < 0x80 then some (b0, r)
    else if 0xc2 ≤ b0 ∧ b0 ≤ 0xdf then
      match r with
      | b1 :: r1 =>
        if 0x80 ≤ b1 ∧ b1 ≤ 0xbf then
          some ((b0 - 0xc0) * 0x40 + (b1 - 0x80), r1)
        else none
      | [] => none
    else if 0xe0 ≤ b0 ∧ b0 ≤ 0xef then
      match r with
      | b1 :: b2 :: r2 =>
        if (if b0 = 0xe0 then 0xa0 else 0x80) ≤ b1 ∧
            b1 ≤ (if b0 = 0xed then 0x9f else 0xbf) ∧
            0x80 ≤ b2 ∧ b2 ≤ 0xbf then
          some ((b0 - 0xe0) * 0x1000 + (b1 - 0x80) * 0x40 + (b2 - 0x80), r2)
        else none
      | _ => none
    else if 0xf0 ≤ b0 ∧ b0 ≤ 0xf4 then
      match r with
      | b1 :: b2 :: b3 :: r3 =>
        if (if b0 = 0xf0 then 0x90 else 0x80) ≤ b1 ∧
            b1 ≤ (if b0 = 0xf4 then 0x8f else 0xbf) ∧
            0x80 ≤ b2 ∧ b2 ≤ 0xbf ∧ 0x80 ≤ b3 ∧ b3 ≤ 0xbf then
          some ((b0 - 0xf0) * 0x40000 + (b1 - 0x80) * 0x1000 +
                (b2 - 0x80) * 0x40 + (b3 - 0x80), r3)
        else none
      | _ => none
    else none

/-- Fuel-driven strict UTF-8 decode; `none` on the first invalid sequence,
matching Python `bytes.decode('utf-8')` raising `UnicodeDecodeError`. -/
def decodeStrictGo : Nat → List Nat → Option PyStr
  | _, [] => some []
  | 0, _ :: _ => none
  | fuel + 1, b :: rest =>
    match decodeOne (b :: rest) with
    | some (c, r) => (decodeStrictGo fuel r).map (fun cs => Char.ofNat c :: cs)
    | none => none

/-- Python `bytes.decode('utf-8')`. -/
def utf8DecodeStrict (xs : List Nat) : Option PyStr :=
  decodeStrictGo (xs.length + 1) xs

/-- Fuel-driven lenient UTF-8 decode that skips an offending byte and
continues; byte-for-byte this agrees with Python's `errors='ignore'`
handler, which drops each maximal ill-formed subsequence (the bytes of such
a subsequence are also skipped one at a time here, and none of them can
begin a valid sequence). -/
def decodeIgnoreGo : Nat → List Nat → PyStr
  | _, [] => []
  | 0, _ :: _ => []
  | fuel + 1, b :: rest =>
    match decodeOne (b :: rest) with
    | some (c, r) => Char.ofNat c :: decodeIgnoreGo fuel r
    | none => decodeIgnoreGo fuel rest

/-- Python `bytes.decode('utf-8', errors='ignore')`. -/
def utf8DecodeIgnore (xs : List Nat) : PyStr :=
  decodeIgnoreGo (xs.length + 1) xs

end Utf8

namespace Multipart

open PyOps Utf8

/-- Value stored for one form field by the decoder: a UTF-8 text field, or a
file with filename, raw content bytes and declared content type. -/
inductive FieldValue : Type
  | text (s : PyStr)
  | file (filename : PyStr) (content : List Nat) (contentType : PyStr)
  deriving DecidableEq, Repr

/-- True exactly on the file-shaped values. -/
def FieldValue.isFile : FieldValue → Bool
  | .file _ _ _ => true
  | .text _ => false

/-- Result dict of the decoder (`result` in `parse_multipart_form_data`). -/
abbrev Dict := List (PyStr × FieldValue)

/-- Errors `parse_multipart_form_data` can raise: `missingBoundary` models
the `ValueError("No boundary found in Content-Type")` of line 73, and
`unicodeDecode` the `UnicodeDecodeError` a strict `bytes.decode('utf-8')`
can raise at line 129. -/
inductive ParseError : Type
  | missingBoundary
  | unicodeDecode
  deriving DecidableEq, Repr

/-- Python truthiness of an optional string (`None` and `''` are falsy). -/
def truthyOpt : Option PyStr → Bool
  | some s => !s.isEmpty
  | none => false

/-- Lines 63 to 70 of `lambda_function.py`: split the Content-Type value on
`;`, take the first stripped segment starting with `boundary=`, keep what
follows the first `=`, and strip wrapping double quotes. An absent segment
or an empty final value both leave `boundary` falsy (line 72). -/
def extractBoundary (contentType : PyStr) : Option PyStr :=
  match (pySplit [';'] contentType).find?
      (fun seg => (sLit "boundary=").isPrefixOf (pyStrip seg)) with
  | none => none
  | some seg =>
    let value :=
      match splitFirst ['='] (pyStrip seg) with
      | some (_, rest) => rest
      | none => []
    let boundary := stripQuotes value
    if boundary.isEmpty then none else some boundary

/-- Body of the header loop of lines 99 to 102: a line containing `:` is
split on its first `:` and stored with stripped, lowercased name and
stripped value; other lines are ignored. -/
def headerFold (headers : List (PyStr × PyStr)) (line : PyStr) :
    List (PyStr × PyStr) :=
  match splitFirst [':'] line with
  | some (key, value) =>
    dictSet headers (pyLower (pyStrip key)) (pyStrip value)
  | none => headers

/-- Lines 97 to 102: decode the header block leniently, split into lines on
`\n`, and fold the header loop over the lines. -/
def parseHeaders (headersRaw : List Nat) : List (PyStr × PyStr) :=
  (pySplit ['\n'] (utf8DecodeIgnore headersRaw)).foldl headerFold []

/-- Body of the loop of lines 111 to 116: a stripped item starting with
`name=` sets the field name, else one starting with `filename=` sets the
filename, each stripped of wrapping quotes; later items win. -/
def dispFold (acc : Option PyStr × Option PyStr) (item0 : PyStr) :
    Option PyStr × Option PyStr :=
  let item := pyStrip item0
  if (sLit "name=").isPrefixOf item then
    (some (stripQuotes ((splitFirst ['='] item).map Prod.snd |>.getD [])),
     acc.2)
  else if (sLit "filename=").isPrefixOf item then
    (acc.1,
     some (stripQuotes ((splitFirst ['='] item).map Prod.snd |>.getD [])))
  else acc

/-- Lines 107 to 116: scan the `;`-separated items of the
content-disposition value with the item loop. -/
def parseDisposition (cd : PyStr) : Option PyStr × Option PyStr :=
  (pySplit [';'] cd).foldl dispFold (none, none)

/-- Entry contributed by one boundary-delimited segment of the body: `none`
when the loop body of lines 85 to 129 skips the segment, and otherwise the
key/value pair it assigns into `result`. -/
def partWrite (part : List Nat) : Except ParseError (Option (PyStr × FieldValue)) :=
  if bstrip part = [] ∨ bstrip part = [0x2d, 0x2d] then
    .ok none
  else
    match
      match splitFirst [0x0d, 0x0a, 0x0d, 0x0a] part with
      | some hc => some hc
      | none => splitFirst [0x0a, 0x0a] part
    with
    | none => .ok none
    | some (headersRaw, content) =>
      match parseDisposition
          (dictGetD (parseHeaders headersRaw) (sLit "content-disposition") []) with
      | (fieldName, filename) =>
        if truthyOpt filename then
          .ok (some (sLit "file",
            .file (filename.getD []) (rstripP isCRLFDashByte content)
              (dictGetD (parseHeaders headersRaw) (sLit "content-type")
                (sLit "application/octet-stream"))))
        else if truthyOpt fieldName then
          match utf8DecodeStrict (rstripP isSpaceByte (rstripP isCRLFDashByte content)) with
          | some s => .ok (some (fieldName.getD [], .text s))
          | none => .error .unicodeDecode
        else
          .ok none

/-- Loop body of lines 85 to 129 acting on the accumulated `result` dict. -/
def processPart (result : Dict) (part : List Nat) : Except ParseError Dict :=
  match partWrite part with
  | .error e => .error e
  | .ok none => .ok result
  | .ok (some (k, v)) => .ok (dictSet result k v)

/-- Lines 57 to 131 of `lambda_function.py`: boundary extraction, split of
the body on `--<boundary>`, and the part loop. The `isinstance(body, str)`
re-encoding branch is dead for a `bytes` body and is not modelled. -/
def parse_multipart_form_data (body : List Nat) (contentType : PyStr) :
    Except ParseError Dict :=
  match extractBoundary contentType with
  | none => .error .missingBoundary
  | some boundary =>
    let boundaryBytes := encodePy ('-' :: '-' :: boundary)
    (pySplit boundaryBytes body).foldlM processPart []

end Multipart

namespace Upload

open PyOps Multipart

/-- Side effects the `/upload` route performs against object storage, in
order: the `upload_fileobj` call and the `generate_presigned_url` call. -/
inductive S3Effect : Type
  | putObject (key : PyStr) (content : List Nat)
  | presignGetUrl (key : PyStr)
  deriving DecidableEq, Repr

/-- Python's `posixpath.rfind`-style search: index of the last occurrence of
`c` in `s`, or `-1` when absent. -/
def rfindIdx (c : Char) (s : PyStr) : Int :=
  (s.foldl
    (fun (acc : Int × Int) x =>
      (if x = c then acc.2 else acc.1, acc.2 + 1))
    (-1, 0)).1

/-- Character of `s` at index `i`, as `posixpath.splitext` reads it. -/
def charAt (s : PyStr) (i : Nat) : Char := s.getD i ' '

/-- Helper of `posixpath.splitext`: true when some index in
`[filenameIndex, dotIndex)` holds a character other than `.`, meaning the
final dot starts a real extension rather than a leading-dots-only name. -/
def extDotOk (p : PyStr) (filenameIndex dotIndex : Nat) : Bool :=
  (List.range dotIndex).any
    (fun i => filenameIndex ≤ i && charAt p i ≠ '.')

/-- Python `os.path.splitext` for POSIX paths (the Lambda runtime is Linux):
split at the last `.` that lies after the last `/` and after at least one
non-dot character of the basename. -/
def splitext (p : PyStr) : PyStr × PyStr :=
  let sepIndex := rfindIdx '/' p
  let dotIndex := rfindIdx '.' p
  if sepIndex < dotIndex ∧ 0 ≤ dotIndex ∧
      extDotOk p (sepIndex + 1).toNat dotIndex.toNat then
    (p.take dotIndex.toNat, p.drop dotIndex.toNat)
  else
    (p, [])

/-- The `ALLOWED_EXTENSIONS` set of line 275. -/
def allowedExtensions : List PyStr :=
  [sLit ".pdf", sLit ".docx", sLit ".jpeg", sLit ".jpg", sLit ".png"]

/-- Python truthiness of an optional decoded form value: `None` is falsy, a
text field is falsy exactly when empty, and a file value is a non-empty
dict, hence truthy. -/
def truthyField : Option FieldValue → Bool
  | none => false
  | some (.text s) => !s.isEmpty
  | some (.file _ _ _) => true

/-- Lines 282 to 327 of `lambda_function.py` (the `/upload` route with the
S3 client available, from the decoded form onward): the checks on the
`file` and `payload` entries and on the extension, then the S3 upload and
presigned-URL calls. Returns the HTTP status code paired with the object
storage effects performed, in order; a text value under `"file"` makes
`file_data["filename"]` raise a `TypeError`, caught by the broad handler of
line 366, hence status 500 with no effects. -/
def uploadRoute (multipartData : Dict) : Nat × List S3Effect :=
  let fileData := dictGet multipartData (sLit "file")
  let payloadStr := dictGet multipartData (sLit "payload")
  if !truthyField fileData then (400, [])
  else if !truthyField payloadStr then (400, [])
  else
    match fileData with
    | some (.file filename content _) =>
      let fileExtension := pyLower (splitext filename).2
      if ¬ fileExtension ∈ allowedExtensions then (400, [])
      else
        let s3Key := sLit "KOTAK-MAHINDRA/" ++ filename
        (200, [S3Effect.putObject s3Key content, S3Effect.presignGetUrl s3Key])
    | _ => (500, [])

end Upload

namespace UsersDb

/-- Row of `public.users` as touched by `handle_user_login`; the SQL
execution layer (`ConnectDB`, not under src/) is modelled by the standard
PostgreSQL semantics of the query text at lines 109 to 125 of
`database/update_users.py`. -/
structure UserRow : Type where
  email : String
  firstName : Option String
  lastName : Option String
  provider : Option String
  salesforceLeadId : Option String
  lastLoginAt : Nat
  createdAt : Nat
  updatedAt : Nat
  deriving DecidableEq, Repr

/-- Table state: list of rows; `email` is the conflict key. -/
abbrev UsersTable := List UserRow

/-- Payload of the `/login` route as passed to `handle_user_login`. -/
structure LoginData : Type where
  firstName : Option String
  lastName : Option String
  email : Option String
  provider : Option String
  salesforceLeadId : Option String
  deriving DecidableEq, Repr

/-- Python truthiness of an optional string (`None` and `''` are falsy). -/
def truthyStr : Option String → Bool
  | some s => !s.isEmpty
  | none => false

/-- Row with the given email, if present (emails are unique per the
conflict constraint). -/
def findRow (tbl : UsersTable) (email : String) : Option UserRow :=
  tbl.find? (fun r => r.email = email)

/-- Function `_fetch_existing_salesforce_lead_id`: the stored lead id of the
row with this email, or `None`. -/
def fetchExistingSalesforceLeadId (tbl : UsersTable) (email : String) :
    Option String :=
  (findRow tbl email).bind (fun r => r.salesforceLeadId)

/-- PostgreSQL `COALESCE(incoming, existing)` on nullable text. -/
def coalesce (incoming existing : Option String) : Option String :=
  match incoming with
  | some v => some v
  | none => existing

/-- Effect of the upsert query of lines 109 to 125: insert a fresh row, or
on an email conflict update that row in place, the stored
`salesforce_lead_id` becoming `COALESCE(incoming, stored)`; `updated_at`
and `created_at` are only set by the insert arm. -/
def upsertUserQuery (tbl : UsersTable) (firstName lastName provider : Option String)
    (email : String) (leadId : Option String) (now : Nat) : UsersTable :=
  if (findRow tbl email).isSome then
    tbl.map (fun r =>
      if r.email = email then
        { r with
          lastLoginAt := now
          salesforceLeadId := coalesce leadId r.salesforceLeadId
          firstName := firstName
          lastName := lastName
          provider := provider }
      else r)
  else
    tbl ++ [{ email := email, firstName := firstName, lastName := lastName,
              provider := provider, salesforceLeadId := leadId,
              lastLoginAt := now, createdAt := now, updatedAt := now }]

/-- Function `handle_user_login` of `database/update_users.py` as a state
transition on the users table, returning the new table and the
`salesforce_lead_id` the response reports (the `RETURNING` value): a falsy
payload id is replaced by the fetched stored id when that is truthy, the
upsert runs with the determined id, and a falsy email leaves the table
unchanged (the 400 early return of line 83). -/
def handle_user_login (tbl : UsersTable) (userData : LoginData) (now : Nat) :
    UsersTable × Option String :=
  if !truthyStr userData.email then (tbl, none)
  else
    let email := userData.email.getD ""
    let leadId0 := userData.salesforceLeadId
    let leadId :=
      if truthyStr leadId0 then leadId0
      else
        match fetchExistingSalesforceLeadId tbl email with
        | some existingId => if !existingId.isEmpty then some existingId else none
        | none => none
    let tbl' := upsertUserQuery tbl userData.firstName userData.lastName
      userData.provider email leadId now
    (tbl', (findRow tbl' email).bind (fun r => r.salesforceLeadId))

end UsersDb

namespace Multipart

open PyOps Utf8

/-- Application of one loop iteration's dict effect: no write, or the
single `result[k] = v` assignment the iteration performs. -/
def applyWrite (d : Dict) (w : Option (PyStr × FieldValue)) : Dict :=
  match w with
  | none => d
  | some (k, v) => dictSet d k v

/-- Value stored at key `k` by the last segment (in body order) that writes
`k`, given the per-segment writes. -/
def lastWrite (ws : List (Option (PyStr × FieldValue))) (k : PyStr) :
    Option FieldValue :=
  match ws with
  | [] => none
  | w :: rest =>
    match lastWrite rest k with
    | some v => some v
    | none =>
      match w with
      | some (k', v) => if k' = k then some v else none
      | none => none

/-- Delimiter `f"--{boundary}".encode('utf-8')` of line 80. -/
def sepBytes (boundary : PyStr) : List Nat :=
  encodePy ('-' :: '-' :: boundary)

/-- Byte sequence of the header/body separator `\r\n\r\n`. -/
def crlf2 : List Nat := [0x0d, 0x0a, 0x0d, 0x0a]

/-- Header block of a canonical text part with field name `n`. -/
def textHeaderStr (n : PyStr) : PyStr :=
  sLit "\r\nContent-Disposition: form-data; name=\"" ++ n ++ sLit "\""

/-- Header block of a canonical file part with filename `fn`. -/
def fileHeaderStr (fn : PyStr) : PyStr :=
  sLit "\r\nContent-Disposition: form-data; name=\"file\"; filename=\"" ++
    fn ++ sLit "\""

/-- Segment a canonical text part contributes between two delimiters. -/
def textPartSeg (n t : PyStr) : List Nat :=
  encodePy (textHeaderStr n) ++ crlf2 ++ encodePy t ++ [0x0d, 0x0a]

/-- Segment a canonical file part contributes between two delimiters. -/
def filePartSeg (fn : PyStr) (fb : List Nat) : List Nat :=
  encodePy (fileHeaderStr fn) ++ crlf2 ++ fb ++ [0x0d, 0x0a]

/-- Final segment left after the closing `--<boundary>--` marker plus a
trailing CRLF. -/
def closeSeg : List Nat := [0x2d, 0x2d, 0x0d, 0x0a]

/-- Canonical well-formed two-part multipart body: one text field and one
file field, closed by the terminating marker. -/
def twoPartBody (boundary n t fn : PyStr) (fb : List Nat) : List Nat :=
  sepBytes boundary ++ textPartSeg n t ++ sepBytes boundary ++
    filePartSeg fn fb ++ sepBytes boundary ++ closeSeg

/-- Body whose single text part carries the byte 0xff, which is not valid
UTF-8. -/
def bodyUnicode : List Nat :=
  encodePy (sLit "--B\r\nContent-Disposition: form-data; name=\"a\"\r\n\r\n") ++
    [0xff] ++ encodePy (sLit "\r\n--B--")

/-- Body whose single part uses bare-linefeed line endings, so the
`\r\n\r\n` separator occurs nowhere in it. -/
def bodyLfOnly : List Nat :=
  encodePy (sLit "--B\nContent-Disposition: form-data; name=\"a\"\n\nhello")

/-- Body whose single part declares both a field name and an explicitly
empty filename. -/
def bodyEmptyFilename : List Nat :=
  encodePy (sLit
    "--B\r\nContent-Disposition: form-data; name=\"a\"; filename=\"\"\r\n\r\nhi\r\n--B--")

/-- Example segment of a file part with both a declared name and filename
plus an explicit content type, used to exercise classification. -/
def filePartExample : List Nat :=
  encodePy (sLit
    "\r\nContent-Disposition: form-data; name=\"f1\"; filename=\"cv.pdf\"\r\nContent-Type: application/pdf\r\n\r\nBODY")

/-- Header block of `filePartExample`, before the `\r\n\r\n` separator. -/
def fileHeadersExample : List Nat :=
  encodePy (sLit
    "\r\nContent-Disposition: form-data; name=\"f1\"; filename=\"cv.pdf\"\r\nContent-Type: application/pdf")

/-- Body of `filePartExample`, after the `\r\n\r\n` separator. -/
def fileContentExample : List Nat := encodePy (sLit "BODY")

/-- Body with a file part followed by a text part that reuses the field
name `file`, so the later text write lands on the file entry's key. -/
def bodyOverwrite : List Nat :=
  encodePy (sLit
    "--B\r\nContent-Disposition: form-data; name=\"x\"; filename=\"a.pdf\"\r\n\r\nPDF\r\n--B\r\nContent-Disposition: form-data; name=\"file\"\r\n\r\nzz\r\n--B--")

end Multipart

deriving instance DecidableEq for Except

namespace PyOps

variable {α : Type} [DecidableEq α]

/-- Absence of the separator anywhere in `xs` (for a non-empty separator,
indices at or beyond the length cannot carry an occurrence). -/
def NoOccur (sep xs : List α) : Prop :=
  ∀ i < xs.length, sep.isPrefixOf (xs.drop i) = false

instance (sep xs : List α) : Decidable (NoOccur sep xs) := by
  unfold NoOccur; infer_instance

/-- Absence of the separator in `a ++ sep` at any index strictly inside
`a`: prepending `a` to `sep ++ rest` creates no occurrence of `sep` before
the explicit one. -/
def CleanFor (sep a : List α) : Prop :=
  ∀ i < a.length, sep.isPrefixOf ((a ++ sep).drop i) = false

instance (sep a : List α) : Decidable (CleanFor sep a) := by
  unfold CleanFor; infer_instance

theorem isPrefixOf_append_of_le (l xs ys : List α) (h : l.length ≤ xs.length) :
    l.isPrefixOf (xs ++ ys) = l.isPrefixOf xs := by
  rw [Bool.eq_iff_iff, List.isPrefixOf_iff_prefix, List.isPrefixOf_iff_prefix]
  constructor
  · intro hp
    rw [List.prefix_iff_eq_take] at hp ⊢
    rwa [List.take_append_of_le_length h] at hp
  · intro hp
    exact hp.trans (List.prefix_append xs ys)

theorem splitGo_fuel (sep : List α) :
    ∀ (f1 : Nat) (xs : List α) (f2 : Nat), xs.length < f1 → xs.length < f2 →
      splitGo sep f1 xs = splitGo sep f2 xs := by
  intro f1
  induction f1 with
  | zero => intro xs f2 h1 _; omega
  | succ f1 ih =>
    intro xs f2 h1 h2
    match xs, f2 with
    | [], f2 => cases f2 <;> rfl
    | x :: rest, f2 + 1 =>
      simp only [splitGo]
      by_cases hc : sep ≠ [] ∧ sep.isPrefixOf (x :: rest) = true
      · rw [if_pos hc, if_pos hc]
        have hlen : ((x :: rest).drop sep.length).length < f1 ∧
            ((x :: rest).drop sep.length).length < f2 := by
          have hsep : 0 < sep.length := List.length_pos.mpr hc.1
          simp only [List.length_drop, List.length_cons] at *
          omega
        rw [ih _ f2 hlen.1 hlen.2]
      · rw [if_neg hc, if_neg hc]
        have hlen : rest.length < f1 ∧ rest.length < f2 := by
          simp only [List.length_cons] at h1 h2; omega
        rw [ih rest f2 hlen.1 hlen.2]

theorem pySplit_nil (sep : List α) : pySplit sep [] = [[]] := rfl

theorem pySplit_sep_append (sep rest : List α) (hsep : sep ≠ []) :
    pySplit sep (sep ++ rest) = [] :: pySplit sep rest := by
  obtain ⟨s, sep', rfl⟩ : ∃ s sep', sep = s :: sep' := by
    cases sep
    · exact absurd rfl hsep
    · exact ⟨_, _, rfl⟩
  have hpre : (s :: sep').isPrefixOf ((s :: sep') ++ rest) = true := by
    rw [List.isPrefixOf_iff_prefix]; exact List.prefix_append _ _
  have hdrop : ((s :: sep') ++ rest).drop (s :: sep').length = rest :=
    List.drop_left _ _
  show splitGo (s :: sep') (((s :: sep') ++ rest).length + 1) ((s :: sep') ++ rest)
      = [] :: pySplit (s :: sep') rest
  rw [show (s :: sep') ++ rest = s :: (sep' ++ rest) from rfl]
  rw [show (s :: (sep' ++ rest)).length + 1 = ((sep' ++ rest).length + 1) + 1 by simp]
  rw [splitGo]
  rw [if_pos ⟨hsep, by rw [show s :: (sep' ++ rest) = (s :: sep') ++ rest from rfl]; exact hpre⟩]
  rw [show s :: (sep' ++ rest) = (s :: sep') ++ rest from rfl, hdrop]
  rw [splitGo_fuel (s :: sep') ((sep' ++ rest).length + 1) rest (rest.length + 1)
    (by simp [List.length_append]; omega) (by omega)]
  rfl

theorem pySplit_cons (sep : List α) (x : α) (rest : List α)
    (h : sep.isPrefixOf (x :: rest) = false) :
    pySplit sep (x :: rest) =
      match pySplit sep rest with
      | [] => [[x]]
      | y :: ys => (x :: y) :: ys := by
  show splitGo sep ((x :: rest).length + 1) (x :: rest) = _
  rw [show (x :: rest).length + 1 = (rest.length + 1) + 1 by simp]
  rw [splitGo]
  rw [if_neg (fun hcon => by rw [h] at hcon; simp at hcon)]
  rfl

theorem pySplit_ne_nil (sep xs : List α) : pySplit sep xs ≠ [] := by
  unfold pySplit
  cases hx : xs with
  | nil => simp [splitGo]
  | cons x rest =>
    rw [show (x :: rest).length + 1 = (rest.length + 1) + 1 by simp, splitGo]
    split
    · simp
    · split <;> simp

theorem pySplit_noOccur (sep : List α) (xs : List α) (h : NoOccur sep xs) :
    pySplit sep xs = [xs] := by
  induction xs with
  | nil => rfl
  | cons x rest ih =>
    have h0 : sep.isPrefixOf (x :: rest) = false := by
      have := h 0 (by simp)
      simpa using this
    rw [pySplit_cons sep x rest h0]
    rw [ih (fun i hi => by
      have := h (i + 1) (by simp; omega)
      simpa using this)]

theorem pySplit_append (sep a rest : List α) (hsep : sep ≠ [])
    (h : CleanFor sep a) :
    pySplit sep (a ++ sep ++ rest) = a :: pySplit sep rest := by
  induction a with
  | nil => simpa using pySplit_sep_append sep rest hsep
  | cons x a' ih =>
    have hx : sep.isPrefixOf (x :: (a' ++ sep ++ rest)) = false := by
      have h0 := h 0 (by simp)
      simp only [List.drop_zero] at h0
      have hlen : sep.length ≤ ((x :: a') ++ sep).length := by
        simp [List.length_append]; omega
      calc sep.isPrefixOf (x :: (a' ++ sep ++ rest))
          = sep.isPrefixOf (((x :: a') ++ sep) ++ rest) := by
            simp [List.append_assoc]
        _ = sep.isPrefixOf ((x :: a') ++ sep) := isPrefixOf_append_of_le _ _ _ hlen
        _ = false := h0
    have hclean' : CleanFor sep a' := by
      intro i hi
      have := h (i + 1) (by simp; omega)
      simpa using this
    rw [show (x :: a') ++ sep ++ rest = x :: (a' ++ sep ++ rest) by simp]
    rw [pySplit_cons sep _ _ hx, ih hclean']

theorem splitFirst_sep_append (sep rest : List α) (hsep : sep ≠ []) :
    splitFirst sep (sep ++ rest) = some ([], rest) := by
  obtain ⟨s, sep', rfl⟩ : ∃ s sep', sep = s :: sep' := by
    cases sep
    · exact absurd rfl hsep
    · exact ⟨_, _, rfl⟩
  have hpre : (s :: sep').isPrefixOf ((s :: sep') ++ rest) = true := by
    rw [List.isPrefixOf_iff_prefix]; exact List.prefix_append _ _
  rw [show (s :: sep') ++ rest = s :: (sep' ++ rest) from rfl, splitFirst]
  rw [if_pos ⟨hsep, by rw [show s :: (sep' ++ rest) = (s :: sep') ++ rest from rfl]; exact hpre⟩]
  rw [show s :: (sep' ++ rest) = (s :: sep') ++ rest from rfl, List.drop_left]

theorem splitFirst_append (sep a rest : List α) (hsep : sep ≠ [])
    (h : CleanFor sep a) :
    splitFirst sep (a ++ sep ++ rest) = some (a, rest) := by
  induction a with
  | nil => simpa using splitFirst_sep_append sep rest hsep
  | cons x a' ih =>
    have hx : sep.isPrefixOf (x :: (a' ++ sep ++ rest)) = false := by
      have h0 := h 0 (by simp)
      simp only [List.drop_zero] at h0
      have hlen : sep.length ≤ ((x :: a') ++ sep).length := by
        simp [List.length_append]; omega
      calc sep.isPrefixOf (x :: (a' ++ sep ++ rest))
          = sep.isPrefixOf (((x :: a') ++ sep) ++ rest) := by
            simp [List.append_assoc]
        _ = sep.isPrefixOf ((x :: a') ++ sep) := isPrefixOf_append_of_le _ _ _ hlen
        _ = false := h0
    have hclean' : CleanFor sep a' := by
      intro i hi
      have := h (i + 1) (by simp; omega)
      simpa using this
    rw [show (x :: a') ++ sep ++ rest = x :: (a' ++ sep ++ rest) by simp]
    rw [splitFirst, if_neg (fun hcon => by rw [hx] at hcon; simp at hcon)]
    rw [ih hclean']

theorem noOccur_singleton (c : α) (xs : List α) (h : c ∉ xs) :
    NoOccur [c] xs := by
  intro i hi
  cases hd : xs.drop i with
  | nil => rfl
  | cons y ys =>
    have hy : y ∈ xs := by
      have hmem : y ∈ xs.drop i := by rw [hd]; exact List.mem_cons_self _ _
      exact List.mem_of_mem_drop hmem
    have hcy : ¬ ([c] <+: (y :: ys)) := by
      intro hp
      have hq := List.prefix_iff_eq_take.mp hp
      simp at hq
      exact h (hq ▸ hy)
    cases hb : [c].isPrefixOf (y :: ys)
    · rfl
    · exact absurd (List.isPrefixOf_iff_prefix.mp hb) hcy

end PyOps

namespace PyOps

variable {α : Type}

theorem rstripP_append_pos (p : α → Bool) (ys : List α) (x : α) (h : p x = true) :
    rstripP p (ys ++ [x]) = rstripP p ys := by
  unfold rstripP
  rw [List.reverse_append, List.reverse_singleton, List.singleton_append,
    List.dropWhile_cons, h]
  simp

theorem rstripP_append_neg (p : α → Bool) (ys : List α) (x : α) (h : p x = false) :
    rstripP p (ys ++ [x]) = ys ++ [x] := by
  unfold rstripP
  rw [List.reverse_append, List.reverse_singleton, List.singleton_append,
    List.dropWhile_cons, h]
  simp

theorem rstripP_cons_neg (p : α → Bool) (x : α) (xs : List α) (h : p x = false) :
    rstripP p (x :: xs) = x :: rstripP p xs := by
  unfold rstripP
  rw [show x :: xs = [x] ++ xs from rfl, List.reverse_append, List.dropWhile_append]
  split
  · next he =>
    simp only [List.reverse_singleton, List.dropWhile_cons, h]
    simp only [List.isEmpty_iff] at he
    simp [he]
  · simp

theorem rstripP_append_of_fixed (p : α → Bool) (a v : List α)
    (ha : rstripP p a = a) (hv : rstripP p v = v) :
    rstripP p (a ++ v) = a ++ v := by
  have hva : List.dropWhile p v.reverse = v.reverse := by
    have h2 := congrArg List.reverse hv
    unfold rstripP at h2
    rwa [List.reverse_reverse] at h2
  have haa : List.dropWhile p a.reverse = a.reverse := by
    have h2 := congrArg List.reverse ha
    unfold rstripP at h2
    rwa [List.reverse_reverse] at h2
  unfold rstripP
  rw [List.reverse_append, List.dropWhile_append, hva]
  split
  · next he =>
    simp only [List.isEmpty_iff] at he
    have hv0 : v = [] := by
      have := congrArg List.reverse he
      simpa using this
    rw [haa]
    simp [hv0]
  · simp

theorem stripP_cons_pos (p : α → Bool) (x : α) (xs : List α) (h : p x = true) :
    stripP p (x :: xs) = stripP p xs := by
  unfold stripP
  rw [List.dropWhile_cons, h]
  simp

theorem stripP_wrap (p : α → Bool) (x : α) (v : List α) (h : p x = true) :
    stripP p (x :: (v ++ [x])) = stripP p v := by
  rw [stripP_cons_pos p x _ h]
  unfold stripP
  rw [List.dropWhile_append]
  split
  · next he =>
    simp only [List.isEmpty_iff] at he
    rw [he]
    simp only [List.dropWhile_cons, h]
    simp [rstripP]
  · rw [rstripP_append_pos p _ x h]

theorem stripQuotes_wrap (v : PyStr) :
    stripQuotes ('"' :: (v ++ ['"'])) = stripQuotes v :=
  stripP_wrap _ '"' v (by decide)

theorem dictGet_dictSet_self {β : Type} (d : List (PyStr × β)) (k : PyStr) (v : β) :
    dictGet (dictSet d k v) k = some v := by
  induction d with
  | nil => simp [dictSet, dictGet]
  | cons kv rest ih =>
    obtain ⟨k', v'⟩ := kv
    by_cases hk : k' = k
    · simp [dictSet, dictGet, hk]
    · simp [dictSet, dictGet, hk, ih]

theorem dictGet_dictSet_ne {β : Type} (d : List (PyStr × β)) (k k' : PyStr) (v : β)
    (h : k' ≠ k) :
    dictGet (dictSet d k v) k' = dictGet d k' := by
  have hkk : ¬ (k = k') := fun he => h he.symm
  induction d with
  | nil => simp [dictSet, dictGet, hkk]
  | cons kv rest ih =>
    obtain ⟨k0, v0⟩ := kv
    unfold dictSet
    by_cases hk : k0 = k
    · rw [if_pos hk]
      subst hk
      simp only [dictGet, if_neg hkk]
    · rw [if_neg hk]
      by_cases hk' : k0 = k'
      · simp only [dictGet, if_pos hk']
      · simp only [dictGet, if_neg hk']
        exact ih

theorem mem_dictSet {β : Type} (d : List (PyStr × β)) (k k' : PyStr) (v v' : β)
    (h : (k', v') ∈ dictSet d k v) :
    (k', v') ∈ d ∨ (k' = k ∧ v' = v) := by
  induction d with
  | nil =>
    simp [dictSet] at h
    exact Or.inr h
  | cons kv rest ih =>
    obtain ⟨k0, v0⟩ := kv
    by_cases hk : k0 = k
    · simp only [dictSet, if_pos hk] at h
      rcases List.mem_cons.mp h with h1 | h1
      · exact Or.inr ⟨congrArg Prod.fst h1, congrArg Prod.snd h1⟩
      · exact Or.inl (List.mem_cons_of_mem _ h1)
    · simp only [dictSet, if_neg hk] at h
      rcases List.mem_cons.mp h with h1 | h1
      · exact Or.inl (List.mem_cons.mpr (Or.inl h1))
      · rcases ih h1 with h2 | h2
        · exact Or.inl (List.mem_cons_of_mem _ h2)
        · exact Or.inr h2

theorem mem_keys_dictSet {β : Type} (d : List (PyStr × β)) (k k'' : PyStr) (v : β)
    (h : k'' ∈ (dictSet d k v).map Prod.fst) :
    k'' ∈ d.map Prod.fst ∨ k'' = k := by
  rcases List.mem_map.mp h with ⟨⟨ka, va⟩, hmem, hfst⟩
  rcases mem_dictSet d k ka v va hmem with h1 | h1
  · exact Or.inl (hfst ▸ List.mem_map_of_mem Prod.fst h1)
  · exact Or.inr (hfst ▸ h1.1)

theorem nodup_keys_dictSet {β : Type} (d : List (PyStr × β)) (k : PyStr) (v : β)
    (h : (d.map Prod.fst).Nodup) :
    ((dictSet d k v).map Prod.fst).Nodup := by
  induction d with
  | nil => simp [dictSet]
  | cons kv rest ih =>
    obtain ⟨k0, v0⟩ := kv
    simp only [List.map_cons, List.nodup_cons] at h
    unfold dictSet
    by_cases hk : k0 = k
    · rw [if_pos hk]
      subst hk
      simp only [List.map_cons, List.nodup_cons]
      exact h
    · rw [if_neg hk]
      simp only [List.map_cons, List.nodup_cons]
      refine ⟨fun hmem => ?_, ih h.2⟩
      rcases mem_keys_dictSet rest k k0 v hmem with h1 | h1
      · exact h.1 h1
      · exact hk h1

end PyOps

namespace Utf8

theorem char_toNat_valid (c : Char) :
    c.toNat < 0xd800 ∨ (0xdfff < c.toNat ∧ c.toNat < 0x110000) := by
  have h := c.valid
  unfold UInt32.isValidChar Nat.isValidChar at h
  exact h

theorem decodeOne_encodeChar (c : Char) (rest : List Nat) :
    decodeOne (encodeChar c ++ rest) = some (c.toNat, rest) := by
  have hv := char_toNat_valid c
  by_cases h1 : c.toNat < 0x80
  · rw [show encodeChar c = [c.toNat] from by unfold encodeChar; rw [if_pos h1]]
    show decodeOne (c.toNat :: rest) = some (c.toNat, rest)
    simp only [decodeOne]
    rw [if_pos h1]
  · by_cases h2 : c.toNat < 0x800
    · rw [show encodeChar c = [0xc0 + c.toNat / 0x40, 0x80 + c.toNat % 0x40] from by
        unfold encodeChar; rw [if_neg h1, if_pos h2]]
      show decodeOne ((0xc0 + c.toNat / 0x40) :: (0x80 + c.toNat % 0x40) :: rest)
        = some (c.toNat, rest)
      simp only [decodeOne]
      rw [if_neg (by omega),
        if_pos (show 0xc2 ≤ 0xc0 + c.toNat / 0x40 ∧ 0xc0 + c.toNat / 0x40 ≤ 0xdf by omega)]
      rw [if_pos (show 0x80 ≤ 0x80 + c.toNat % 0x40 ∧ 0x80 + c.toNat % 0x40 ≤ 0xbf by omega)]
      rw [show (0xc0 + c.toNat / 0x40 - 0xc0) * 0x40 + (0x80 + c.toNat % 0x40 - 0x80)
        = c.toNat from by omega]
    · by_cases h3 : c.toNat < 0x10000
      · rw [show encodeChar c = [0xe0 + c.toNat / 0x1000, 0x80 + (c.toNat / 0x40) % 0x40,
            0x80 + c.toNat % 0x40] from by
          unfold encodeChar; rw [if_neg h1, if_neg h2, if_pos h3]]
        show decodeOne ((0xe0 + c.toNat / 0x1000) :: (0x80 + (c.toNat / 0x40) % 0x40)
          :: (0x80 + c.toNat % 0x40) :: rest) = some (c.toNat, rest)
        simp only [decodeOne]
        rw [if_neg (by omega), if_neg (by omega),
          if_pos (show 0xe0 ≤ 0xe0 + c.toNat / 0x1000 ∧ 0xe0 + c.toNat / 0x1000 ≤ 0xef by omega)]
        rw [if_pos (show _ ∧ _ ∧ _ ∧ _ from ⟨by split <;> omega,
          by split
             · next h4 => rcases hv with h5 | h5 <;> omega
             · omega,
          by omega, by omega⟩)]
        rw [show (0xe0 + c.toNat / 0x1000 - 0xe0) * 0x1000
          + (0x80 + (c.toNat / 0x40) % 0x40 - 0x80) * 0x40
          + (0x80 + c.toNat % 0x40 - 0x80) = c.toNat from by omega]
      · have hlt : c.toNat < 0x110000 := by rcases hv with h5 | h5 <;> omega
        rw [show encodeChar c = [0xf0 + c.toNat / 0x40000, 0x80 + (c.toNat / 0x1000) % 0x40,
            0x80 + (c.toNat / 0x40) % 0x40, 0x80 + c.toNat % 0x40] from by
          unfold encodeChar; rw [if_neg h1, if_neg h2, if_neg h3]]
        show decodeOne ((0xf0 + c.toNat / 0x40000) :: (0x80 + (c.toNat / 0x1000) % 0x40)
          :: (0x80 + (c.toNat / 0x40) % 0x40) :: (0x80 + c.toNat % 0x40) :: rest)
          = some (c.toNat, rest)
        simp only [decodeOne]
        rw [if_neg (by omega), if_neg (by omega), if_neg (by omega),
          if_pos (show 0xf0 ≤ 0xf0 + c.toNat / 0x40000 ∧ 0xf0 + c.toNat / 0x40000 ≤ 0xf4 by omega)]
        rw [if_pos (show _ ∧ _ ∧ _ ∧ _ ∧ _ ∧ _ from ⟨by split <;> omega,
          by split <;> omega, by omega, by omega, by omega, by omega⟩)]
        rw [show (0xf0 + c.toNat / 0x40000 - 0xf0) * 0x40000
          + (0x80 + (c.toNat / 0x1000) % 0x40 - 0x80) * 0x1000
          + (0x80 + (c.toNat / 0x40) % 0x40 - 0x80) * 0x40
          + (0x80 + c.toNat % 0x40 - 0x80) = c.toNat from by omega]

theorem decodeOne_length (xs : List Nat) (c : Nat) (r : List Nat)
    (h : decodeOne xs = some (c, r)) : r.length < xs.length := by
  match xs with
  | [] => exact Option.noConfusion h
  | b0 :: rest =>
    simp only [decodeOne] at h
    repeat' split at h
    all_goals
      first
        | exact Option.noConfusion h
        | (simp only [Option.some.injEq, Prod.mk.injEq] at h
           obtain ⟨-, rfl⟩ := h
           simp only [List.length_cons]
           omega)

theorem decodeStrictGo_fuel :
    ∀ (f1 : Nat) (xs : List Nat) (f2 : Nat), xs.length < f1 → xs.length < f2 →
      decodeStrictGo f1 xs = decodeStrictGo f2 xs := by
  intro f1
  induction f1 with
  | zero => intro xs f2 h1 _; omega
  | succ f1 ih =>
    intro xs f2 h1 h2
    match xs, f2 with
    | [], f2 => cases f2 <;> rfl
    | b :: rest, f2 + 1 =>
      simp only [decodeStrictGo]
      cases hd : decodeOne (b :: rest) with
      | none => rfl
      | some cr =>
        obtain ⟨c, r⟩ := cr
        have hr := decodeOne_length _ _ _ hd
        simp only [List.length_cons] at h1 h2 hr
        dsimp only
        rw [ih r f2 (by omega) (by omega)]

theorem decodeIgnoreGo_fuel :
    ∀ (f1 : Nat) (xs : List Nat) (f2 : Nat), xs.length < f1 → xs.length < f2 →
      decodeIgnoreGo f1 xs = decodeIgnoreGo f2 xs := by
  intro f1
  induction f1 with
  | zero => intro xs f2 h1 _; omega
  | succ f1 ih =>
    intro xs f2 h1 h2
    match xs, f2 with
    | [], f2 => cases f2 <;> rfl
    | b :: rest, f2 + 1 =>
      simp only [decodeIgnoreGo]
      cases hd : decodeOne (b :: rest) with
      | none =>
        simp only [List.length_cons] at h1 h2
        dsimp only
        rw [ih rest f2 (by omega) (by omega)]
      | some cr =>
        obtain ⟨c, r⟩ := cr
        have hr := decodeOne_length _ _ _ hd
        simp only [List.length_cons] at h1 h2 hr
        dsimp only
        rw [ih r f2 (by omega) (by omega)]

theorem encodeChar_ne_nil (c : Char) : ∃ b bs, encodeChar c = b :: bs := by
  unfold encodeChar
  split
  · exact ⟨_, _, rfl⟩
  · split
    · exact ⟨_, _, rfl⟩
    · split
      · exact ⟨_, _, rfl⟩
      · exact ⟨_, _, rfl⟩

theorem decodeStrictGo_encodePy (s : PyStr) :
    ∀ fuel, (encodePy s).length < fuel → decodeStrictGo fuel (encodePy s) = some s := by
  induction s with
  | nil => intro fuel _; cases fuel <;> rfl
  | cons c s' ih =>
    intro fuel h
    have hsplit : encodePy (c :: s') = encodeChar c ++ encodePy s' := by
      simp [encodePy]
    obtain ⟨b, bs, hbb⟩ := encodeChar_ne_nil c
    match fuel with
    | 0 => omega
    | fuel + 1 =>
      rw [hsplit, hbb, List.cons_append]
      simp only [decodeStrictGo]
      rw [show b :: (bs ++ encodePy s') = encodeChar c ++ encodePy s' from by
        rw [hbb]; rfl]
      simp only [decodeOne_encodeChar]
      have hlen : (encodePy s').length < fuel := by
        rw [hsplit, hbb] at h
        simp only [List.length_append, List.length_cons] at h
        omega
      rw [ih fuel hlen]
      simp [Char.ofNat_toNat]

theorem utf8DecodeStrict_encodePy (s : PyStr) :
    utf8DecodeStrict (encodePy s) = some s :=
  decodeStrictGo_encodePy s _ (by omega)

theorem decodeIgnoreGo_encodePy (s : PyStr) :
    ∀ fuel, (encodePy s).length < fuel → decodeIgnoreGo fuel (encodePy s) = s := by
  induction s with
  | nil => intro fuel _; cases fuel <;> rfl
  | cons c s' ih =>
    intro fuel h
    have hsplit : encodePy (c :: s') = encodeChar c ++ encodePy s' := by
      simp [encodePy]
    obtain ⟨b, bs, hbb⟩ := encodeChar_ne_nil c
    match fuel with
    | 0 => omega
    | fuel + 1 =>
      rw [hsplit, hbb, List.cons_append]
      simp only [decodeIgnoreGo]
      rw [show b :: (bs ++ encodePy s') = encodeChar c ++ encodePy s' from by
        rw [hbb]; rfl]
      simp only [decodeOne_encodeChar]
      have hlen : (encodePy s').length < fuel := by
        rw [hsplit, hbb] at h
        simp only [List.length_append, List.length_cons] at h
        omega
      rw [ih fuel hlen]
      simp [Char.ofNat_toNat]

theorem utf8DecodeIgnore_encodePy (s : PyStr) :
    utf8DecodeIgnore (encodePy s) = s :=
  decodeIgnoreGo_encodePy s _ (by omega)

theorem encodePy_append (a b : PyStr) :
    encodePy (a ++ b) = encodePy a ++ encodePy b := by
  simp [encodePy]

end Utf8

namespace Multipart

open PyOps Utf8

theorem exceptBindOk {ε α β : Type} (a : α) (k : α → Except ε β) :
    (Except.ok a >>= k) = k a := rfl

theorem exceptBindErr {ε α β : Type} (e : ε) (k : α → Except ε β) :
    ((Except.error e : Except ε α) >>= k) = Except.error e := rfl

theorem partWrite_error (p : List Nat) (e : ParseError)
    (h : partWrite p = .error e) : e = .unicodeDecode := by
  unfold partWrite at h
  repeat' split at h
  all_goals
    first
      | exact Except.noConfusion h
      | exact (Except.error.inj h).symm

theorem processPart_of_write (d : Dict) (p : List Nat)
    (w : Option (PyStr × FieldValue)) (h : partWrite p = .ok w) :
    processPart d p = .ok (applyWrite d w) := by
  unfold processPart applyWrite
  rw [h]
  cases w with
  | none => rfl
  | some kv => obtain ⟨k, v⟩ := kv; rfl

theorem processPart_of_error (d : Dict) (p : List Nat) (e : ParseError)
    (h : partWrite p = .error e) : processPart d p = .error e := by
  unfold processPart
  rw [h]

theorem foldlM_processPart_error (parts : List (List Nat)) :
    ∀ (d : Dict) (e : ParseError),
      parts.foldlM processPart d = .error e → e = .unicodeDecode := by
  induction parts with
  | nil => intro d e h; exact Except.noConfusion h
  | cons p ps ih =>
    intro d e h
    rw [List.foldlM_cons] at h
    cases hw : partWrite p with
    | error e' =>
      rw [processPart_of_error d p e' hw, exceptBindErr] at h
      rw [← Except.error.inj h]
      exact partWrite_error p e' hw
    | ok w =>
      rw [processPart_of_write d p w hw, exceptBindOk] at h
      exact ih _ _ h

theorem foldlM_processPart_ok (parts : List (List Nat)) :
    ∀ (d r : Dict), parts.foldlM processPart d = .ok r →
      ∃ ws, parts.mapM partWrite = .ok ws ∧ r = ws.foldl applyWrite d := by
  induction parts with
  | nil =>
    intro d r h
    exact ⟨[], rfl, (Except.ok.inj h).symm⟩
  | cons p ps ih =>
    intro d r h
    rw [List.foldlM_cons] at h
    cases hw : partWrite p with
    | error e' =>
      rw [processPart_of_error d p e' hw, exceptBindErr] at h
      exact Except.noConfusion h
    | ok w =>
      rw [processPart_of_write d p w hw, exceptBindOk] at h
      obtain ⟨ws', hm, hr⟩ := ih _ _ h
      refine ⟨w :: ws', ?_, ?_⟩
      · rw [List.mapM_cons, hw]
        rw [show ((Except.ok w : Except ParseError _) >>=
          fun x => ps.mapM partWrite >>= fun xs => pure (x :: xs))
          = ps.mapM partWrite >>= fun xs => pure (w :: xs) from rfl]
        rw [hm]
        rfl
      · rw [List.foldl_cons]
        exact hr

theorem mapM_partWrite_mem (parts : List (List Nat)) :
    ∀ ws, parts.mapM partWrite = .ok ws →
      ∀ w ∈ ws, ∃ p ∈ parts, partWrite p = .ok w := by
  induction parts with
  | nil =>
    intro ws h w hw
    rw [show ([] : List (List Nat)).mapM partWrite = .ok [] from rfl] at h
    rw [← Except.ok.inj h] at hw
    exact absurd hw (List.not_mem_nil w)
  | cons p ps ih =>
    intro ws h w hw
    rw [List.mapM_cons] at h
    cases hp : partWrite p with
    | error e =>
      rw [hp, exceptBindErr] at h
      exact Except.noConfusion h
    | ok w0 =>
      rw [hp, exceptBindOk] at h
      cases hm : ps.mapM partWrite with
      | error e =>
        rw [hm, exceptBindErr] at h
        exact Except.noConfusion h
      | ok ws' =>
        rw [hm, exceptBindOk] at h
        have hws : ws = w0 :: ws' := (Except.ok.inj h).symm
        subst hws
        rcases List.mem_cons.mp hw with h1 | h1
        · exact ⟨p, List.mem_cons_self _ _, h1 ▸ hp⟩
        · obtain ⟨p', hp', hw'⟩ := ih ws' hm w h1
          exact ⟨p', List.mem_cons_of_mem _ hp', hw'⟩

theorem lastWrite_cons (w : Option (PyStr × FieldValue))
    (rest : List (Option (PyStr × FieldValue))) (k : PyStr) :
    lastWrite (w :: rest) k =
      match lastWrite rest k with
      | some v => some v
      | none =>
        match w with
        | some (k', v) => if k' = k then some v else none
        | none => none := rfl

theorem dictGet_foldl_applyWrite (ws : List (Option (PyStr × FieldValue))) :
    ∀ (d : Dict) (k : PyStr),
      dictGet (ws.foldl applyWrite d) k =
        match lastWrite ws k with
        | some v => some v
        | none => dictGet d k := by
  induction ws with
  | nil => intro d k; rfl
  | cons w rest ih =>
    intro d k
    rw [List.foldl_cons, ih (applyWrite d w) k, lastWrite_cons]
    cases hlw : lastWrite rest k with
    | some v => rfl
    | none =>
      cases w with
      | none => rfl
      | some kv =>
        obtain ⟨k', v⟩ := kv
        show dictGet (dictSet d k' v) k = _
        dsimp only
        by_cases hk : k' = k
        · subst hk
          rw [dictGet_dictSet_self]
          rw [if_pos rfl]
        · rw [dictGet_dictSet_ne d k' k v (fun he => hk he.symm)]
          rw [if_neg hk]

theorem foldl_applyWrite_file_key (ws : List (Option (PyStr × FieldValue)))
    (hws : ∀ w ∈ ws, ∀ k v, w = some (k, v) → FieldValue.isFile v = true →
      k = sLit "file") :
    ∀ d : Dict, (∀ kv ∈ d, FieldValue.isFile kv.2 = true → kv.1 = sLit "file") →
      ∀ kv ∈ ws.foldl applyWrite d, FieldValue.isFile kv.2 = true →
        kv.1 = sLit "file" := by
  induction ws with
  | nil => intro d hd kv hkv; exact hd kv hkv
  | cons w rest ih =>
    intro d hd kv hkv
    rw [List.foldl_cons] at hkv
    refine ih (fun w' hw' => hws w' (List.mem_cons_of_mem _ hw')) _ ?_ kv hkv
    intro kv' hkv' hfile
    cases hw : w with
    | none =>
      rw [hw] at hkv'
      exact hd kv' hkv' hfile
    | some kv0 =>
      obtain ⟨k0, v0⟩ := kv0
      rw [hw] at hkv'
      obtain ⟨k1, v1⟩ := kv'
      rcases mem_dictSet d k0 k1 v0 v1 hkv' with h1 | h1
      · exact hd _ h1 hfile
      · rw [show (k1, v1).1 = k1 from rfl, h1.1]
        refine hws w (List.mem_cons_self _ _) k0 v0 hw ?_
        rw [show (k1, v1).2 = v1 from rfl] at hfile
        rw [h1.2] at hfile
        exact hfile

theorem foldl_applyWrite_nodup (ws : List (Option (PyStr × FieldValue))) :
    ∀ d : Dict, (d.map Prod.fst).Nodup →
      ((ws.foldl applyWrite d).map Prod.fst).Nodup := by
  induction ws with
  | nil => intro d hd; exact hd
  | cons w rest ih =>
    intro d hd
    rw [List.foldl_cons]
    refine ih _ ?_
    cases w with
    | none => exact hd
    | some kv =>
      obtain ⟨k, v⟩ := kv
      exact nodup_keys_dictSet d k v hd

theorem partWrite_file_key (p : List Nat) (k : PyStr) (v : FieldValue)
    (h : partWrite p = .ok (some (k, v))) (hf : FieldValue.isFile v = true) :
    k = sLit "file" := by
  unfold partWrite at h
  repeat' split at h
  all_goals
    first
      | exact Except.noConfusion h
      | exact Option.noConfusion (Except.ok.inj h)
      | (simp only [Except.ok.injEq, Option.some.injEq, Prod.mk.injEq] at h
         exact h.1.symm)
      | (simp only [Except.ok.injEq, Option.some.injEq, Prod.mk.injEq] at h
         rw [← h.2] at hf
         exact absurd hf (by simp [FieldValue.isFile]))

end Multipart

namespace Multipart

open PyOps Utf8

theorem pyStrip_space (mid : PyStr) (c0 : Char) (rest0 : PyStr)
    (hm : mid = c0 :: rest0) (hc : isPySpace c0 = false)
    (hrs : rstripP isPySpace mid = mid) :
    pyStrip (' ' :: mid) = mid := by
  subst hm
  unfold pyStrip stripP
  rw [List.dropWhile_cons, if_pos (show isPySpace ' ' = true from rfl)]
  rw [List.dropWhile_cons, if_neg (show ¬ isPySpace c0 = true from by
    rw [hc]; simp)]
  exact hrs

theorem headerFold_line (d : List (PyStr × PyStr)) (pre mid : PyStr)
    (hclean : CleanFor [':'] pre) :
    headerFold d (pre ++ [':'] ++ mid) =
      dictSet d (pyLower (pyStrip pre)) (pyStrip mid) := by
  unfold headerFold
  rw [splitFirst_append [':'] pre mid (by decide) hclean]

theorem parseHeaders_cd (mid : PyStr) (c0 : Char) (rest0 : PyStr)
    (hm : mid = c0 :: rest0) (hc : isPySpace c0 = false)
    (hnl : ('\n' : Char) ∉ mid) (hrs : rstripP isPySpace mid = mid) :
    parseHeaders (encodePy (sLit "\r\nContent-Disposition: " ++ mid)) =
      [(sLit "content-disposition", mid)] := by
  unfold parseHeaders
  rw [utf8DecodeIgnore_encodePy]
  rw [show sLit "\r\nContent-Disposition: " ++ mid =
    ['\r'] ++ ['\n'] ++ (sLit "Content-Disposition: " ++ mid) from rfl]
  rw [pySplit_append ['\n'] ['\r'] (sLit "Content-Disposition: " ++ mid)
    (by decide) (by decide)]
  rw [pySplit_noOccur ['\n'] (sLit "Content-Disposition: " ++ mid)
    (noOccur_singleton _ _ (by
      intro hmem
      rcases List.mem_append.mp hmem with h | h
      · exact absurd h (by decide)
      · exact hnl h))]
  rw [List.foldl_cons, List.foldl_cons, List.foldl_nil]
  rw [show headerFold [] ['\r'] = [] from rfl]
  rw [show sLit "Content-Disposition: " ++ mid =
    sLit "Content-Disposition" ++ [':'] ++ (' ' :: mid) from rfl]
  rw [headerFold_line [] (sLit "Content-Disposition") (' ' :: mid) (by decide)]
  rw [pyStrip_space mid c0 rest0 hm hc hrs]
  rw [show pyLower (pyStrip (sLit "Content-Disposition")) =
    sLit "content-disposition" from by decide]
  rfl

theorem encodePy_header_shape (mid : PyStr) :
    encodePy (sLit "\r\nContent-Disposition: " ++ mid) =
      13 :: 10 :: 67 :: encodePy (sLit "ontent-Disposition: " ++ mid) := by
  rw [show sLit "\r\nContent-Disposition: " ++ mid =
    '\r' :: '\n' :: 'C' :: (sLit "ontent-Disposition: " ++ mid) from rfl]
  simp only [encodePy, List.flatMap_cons]
  rw [show encodeChar '\r' = [13] from rfl, show encodeChar '\n' = [10] from rfl,
    show encodeChar 'C' = [67] from rfl]
  rfl

theorem bstrip_header_cons (X : List Nat) :
    bstrip (13 :: 10 :: 67 :: X) = 67 :: rstripP isSpaceByte X := by
  unfold bstrip stripP
  rw [List.dropWhile_cons, if_pos (show isSpaceByte 13 = true from rfl)]
  rw [List.dropWhile_cons, if_pos (show isSpaceByte 10 = true from rfl)]
  rw [List.dropWhile_cons, if_neg (show ¬ isSpaceByte 67 = true from by decide)]
  exact rstripP_cons_neg _ 67 X (by decide)

end Multipart

namespace Multipart

open PyOps Utf8

theorem partWrite_textPart (n t : PyStr)
    (hn : ('\n' : Char) ∉ n) (hnn : n ≠ [])
    (hhdr : CleanFor crlf2 (encodePy (textHeaderStr n)))
    (hdisp : parseDisposition (sLit "form-data; name=\"" ++ n ++ sLit "\"") =
      (some n, none))
    (hstrip : rstripP isSpaceByte (rstripP isCRLFDashByte
      (encodePy t ++ [0x0d, 0x0a])) = encodePy t) :
    partWrite (textPartSeg n t) = .ok (some (n, .text t)) := by
  have hph : parseHeaders (encodePy (textHeaderStr n)) =
      [(sLit "content-disposition", sLit "form-data; name=\"" ++ n ++ sLit "\"")] := by
    rw [show textHeaderStr n = sLit "\r\nContent-Disposition: " ++
      (sLit "form-data; name=\"" ++ n ++ sLit "\"") from rfl]
    refine parseHeaders_cd _ 'f' (sLit "orm-data; name=\"" ++ n ++ sLit "\"")
      rfl (by decide) ?_ ?_
    · intro hmem
      rcases List.mem_append.mp hmem with h | h
      · rcases List.mem_append.mp h with h2 | h2
        · exact absurd h2 (by decide)
        · exact hn h2
      · exact absurd h (by decide)
    · rw [show (sLit "\"" : PyStr) = ['"'] from rfl]
      exact rstripP_append_neg _ _ '"' (by decide)
  have hb : textPartSeg n t = 13 :: 10 :: 67 ::
      (encodePy (sLit "ontent-Disposition: " ++
        (sLit "form-data; name=\"" ++ n ++ sLit "\"")) ++
        crlf2 ++ encodePy t ++ [0x0d, 0x0a]) := by
    unfold textPartSeg
    rw [show textHeaderStr n = sLit "\r\nContent-Disposition: " ++
      (sLit "form-data; name=\"" ++ n ++ sLit "\"") from rfl]
    rw [encodePy_header_shape]
    rfl
  have hskip : ¬ (bstrip (textPartSeg n t) = [] ∨
      bstrip (textPartSeg n t) = [0x2d, 0x2d]) := by
    rw [hb, bstrip_header_cons]
    intro hcon
    rcases hcon with h | h
    · exact List.noConfusion h
    · exact absurd (List.cons.inj h).1 (by decide)
  unfold partWrite
  rw [if_neg hskip]
  unfold textPartSeg
  rw [List.append_assoc (encodePy (textHeaderStr n) ++ crlf2)
    (encodePy t) [0x0d, 0x0a]]
  rw [show crlf2 = ([0x0d, 0x0a, 0x0d, 0x0a] : List Nat) from rfl]
  rw [splitFirst_append [0x0d, 0x0a, 0x0d, 0x0a] (encodePy (textHeaderStr n))
    (encodePy t ++ [0x0d, 0x0a]) (by decide) hhdr]
  dsimp only
  rw [hph]
  rw [show dictGetD
    [(sLit "content-disposition", sLit "form-data; name=\"" ++ n ++ sLit "\"")]
    (sLit "content-disposition") [] =
      sLit "form-data; name=\"" ++ n ++ sLit "\"" from by
    unfold dictGetD dictGet
    rw [if_pos rfl]
    rfl]
  rw [hdisp]
  dsimp only
  rw [if_neg (show ¬ truthyOpt none = true from by simp [truthyOpt])]
  rw [if_pos (show truthyOpt (some n) = true from by
    cases n with
    | nil => exact absurd rfl hnn
    | cons a l => rfl)]
  rw [hstrip]
  rw [utf8DecodeStrict_encodePy]
  rfl

theorem partWrite_filePart (fn : PyStr) (fb : List Nat)
    (hn : ('\n' : Char) ∉ fn) (hfn : fn ≠ [])
    (hhdr : CleanFor crlf2 (encodePy (fileHeaderStr fn)))
    (hdisp : parseDisposition
      (sLit "form-data; name=\"file\"; filename=\"" ++ fn ++ sLit "\"") =
      (some (sLit "file"), some fn))
    (hstrip : rstripP isCRLFDashByte (fb ++ [0x0d, 0x0a]) = fb) :
    partWrite (filePartSeg fn fb) = .ok (some (sLit "file",
      .file fn fb (sLit "application/octet-stream"))) := by
  have hph : parseHeaders (encodePy (fileHeaderStr fn)) =
      [(sLit "content-disposition",
        sLit "form-data; name=\"file\"; filename=\"" ++ fn ++ sLit "\"")] := by
    rw [show fileHeaderStr fn = sLit "\r\nContent-Disposition: " ++
      (sLit "form-data; name=\"file\"; filename=\"" ++ fn ++ sLit "\"") from rfl]
    refine parseHeaders_cd _ 'f'
      (sLit "orm-data; name=\"file\"; filename=\"" ++ fn ++ sLit "\"")
      rfl (by decide) ?_ ?_
    · intro hmem
      rcases List.mem_append.mp hmem with h | h
      · rcases List.mem_append.mp h with h2 | h2
        · exact absurd h2 (by decide)
        · exact hn h2
      · exact absurd h (by decide)
    · rw [show (sLit "\"" : PyStr) = ['"'] from rfl]
      exact rstripP_append_neg _ _ '"' (by decide)
  have hb : filePartSeg fn fb = 13 :: 10 :: 67 ::
      (encodePy (sLit "ontent-Disposition: " ++
        (sLit "form-data; name=\"file\"; filename=\"" ++ fn ++ sLit "\"")) ++
        crlf2 ++ fb ++ [0x0d, 0x0a]) := by
    unfold filePartSeg
    rw [show fileHeaderStr fn = sLit "\r\nContent-Disposition: " ++
      (sLit "form-data; name=\"file\"; filename=\"" ++ fn ++ sLit "\"") from rfl]
    rw [encodePy_header_shape]
    rfl
  have hskip : ¬ (bstrip (filePartSeg fn fb) = [] ∨
      bstrip (filePartSeg fn fb) = [0x2d, 0x2d]) := by
    rw [hb, bstrip_header_cons]
    intro hcon
    rcases hcon with h | h
    · exact List.noConfusion h
    · exact absurd (List.cons.inj h).1 (by decide)
  unfold partWrite
  rw [if_neg hskip]
  unfold filePartSeg
  rw [List.append_assoc (encodePy (fileHeaderStr fn) ++ crlf2)
    fb [0x0d, 0x0a]]
  rw [show crlf2 = ([0x0d, 0x0a, 0x0d, 0x0a] : List Nat) from rfl]
  rw [splitFirst_append [0x0d, 0x0a, 0x0d, 0x0a] (encodePy (fileHeaderStr fn))
    (fb ++ [0x0d, 0x0a]) (by decide) hhdr]
  dsimp only
  rw [hph]
  rw [show dictGetD
    [(sLit "content-disposition",
      sLit "form-data; name=\"file\"; filename=\"" ++ fn ++ sLit "\"")]
    (sLit "content-disposition") [] =
      sLit "form-data; name=\"file\"; filename=\"" ++ fn ++ sLit "\"" from by
    unfold dictGetD dictGet
    rw [if_pos rfl]
    rfl]
  rw [hdisp]
  dsimp only
  rw [if_pos (show truthyOpt (some fn) = true from by
    cases fn with
    | nil => exact absurd rfl hfn
    | cons a l => rfl)]
  rw [hstrip]
  rw [show dictGetD
    [(sLit "content-disposition",
      sLit "form-data; name=\"file\"; filename=\"" ++ fn ++ sLit "\"")]
    (sLit "content-type") (sLit "application/octet-stream") =
      sLit "application/octet-stream" from by
    unfold dictGetD dictGet
    rw [if_neg (by decide)]
    rfl]
  rfl

theorem partWrite_closeSeg : partWrite closeSeg = .ok none := by decide

theorem partWrite_nilSeg : partWrite [] = .ok none := by decide

end Multipart

namespace Multipart

open PyOps Utf8

theorem sepBytes_cons (boundary : PyStr) :
    sepBytes boundary = 45 :: 45 :: encodePy boundary := by
  unfold sepBytes
  simp only [encodePy, List.flatMap_cons]
  rw [show encodeChar '-' = [45] from rfl]
  rfl

theorem sepBytes_ne_nil (boundary : PyStr) : sepBytes boundary ≠ [] := by
  rw [sepBytes_cons]
  simp

theorem pySplit_twoPartBody (B n t fn : PyStr) (fb : List Nat)
    (h1 : CleanFor (sepBytes B) (textPartSeg n t))
    (h2 : CleanFor (sepBytes B) (filePartSeg fn fb))
    (h3 : NoOccur (sepBytes B) closeSeg) :
    pySplit (sepBytes B) (twoPartBody B n t fn fb) =
      [[], textPartSeg n t, filePartSeg fn fb, closeSeg] := by
  rw [show twoPartBody B n t fn fb = sepBytes B ++
      ((textPartSeg n t ++ sepBytes B) ++
        ((filePartSeg fn fb ++ sepBytes B) ++ closeSeg)) from by
    unfold twoPartBody
    simp only [List.append_assoc]]
  rw [pySplit_sep_append (sepBytes B) _ (sepBytes_ne_nil B)]
  rw [pySplit_append (sepBytes B) (textPartSeg n t) _ (sepBytes_ne_nil B) h1]
  rw [pySplit_append (sepBytes B) (filePartSeg fn fb) closeSeg
    (sepBytes_ne_nil B) h2]
  rw [pySplit_noOccur _ _ h3]

end Multipart

namespace Multipart

open PyOps Utf8

/-- C1: for every valid multipart body containing exactly one file part and
one text part — here the canonical two-part body whose components do not
collide with the delimiter or the header separator, whose names are
non-empty, newline-free and distinct from the fixed file key, and whose
contents survive the decoder's trailing-artifact strip — the decoder
recovers both fields: the entry under key `file` holds the file part's
body byte for byte, and the text entry holds the exact declared text. -/
theorem claim_C1_two_part_roundtrip
    (ct B n t fn : PyStr) (fb : List Nat)
    (hb : extractBoundary ct = some B)
    (h1 : CleanFor (sepBytes B) (textPartSeg n t))
    (h2 : CleanFor (sepBytes B) (filePartSeg fn fb))
    (h3 : NoOccur (sepBytes B) closeSeg)
    (hhdr1 : CleanFor crlf2 (encodePy (textHeaderStr n)))
    (hhdr2 : CleanFor crlf2 (encodePy (fileHeaderStr fn)))
    (hn : ('\n' : Char) ∉ n) (hnn : n ≠ []) (hnf : n ≠ sLit "file")
    (hfnl : ('\n' : Char) ∉ fn) (hfn : fn ≠ [])
    (hdisp1 : parseDisposition (sLit "form-data; name=\"" ++ n ++ sLit "\"") =
      (some n, none))
    (hdisp2 : parseDisposition
      (sLit "form-data; name=\"file\"; filename=\"" ++ fn ++ sLit "\"") =
      (some (sLit "file"), some fn))
    (hstrip1 : rstripP isSpaceByte (rstripP isCRLFDashByte
      (encodePy t ++ [0x0d, 0x0a])) = encodePy t)
    (hstrip2 : rstripP isCRLFDashByte (fb ++ [0x0d, 0x0a]) = fb) :
    parse_multipart_form_data (twoPartBody B n t fn fb) ct =
      .ok [(n, .text t),
           (sLit "file", .file fn fb (sLit "application/octet-stream"))] := by
  unfold parse_multipart_form_data
  rw [hb]
  dsimp only
  rw [show encodePy ('-' :: '-' :: B) = sepBytes B from rfl]
  rw [pySplit_twoPartBody B n t fn fb h1 h2 h3]
  rw [List.foldlM_cons]
  rw [processPart_of_write [] [] none partWrite_nilSeg, exceptBindOk]
  rw [show applyWrite ([] : Dict) none = ([] : Dict) from rfl]
  rw [List.foldlM_cons]
  rw [processPart_of_write [] (textPartSeg n t) _
    (partWrite_textPart n t hn hnn hhdr1 hdisp1 hstrip1), exceptBindOk]
  rw [show applyWrite ([] : Dict) (some (n, FieldValue.text t)) =
    [(n, FieldValue.text t)] from rfl]
  rw [List.foldlM_cons]
  rw [processPart_of_write [(n, FieldValue.text t)] (filePartSeg fn fb) _
    (partWrite_filePart fn fb hfnl hfn hhdr2 hdisp2 hstrip2), exceptBindOk]
  rw [show applyWrite [(n, FieldValue.text t)]
      (some (sLit "file", FieldValue.file fn fb (sLit "application/octet-stream"))) =
    [(n, FieldValue.text t),
     (sLit "file", FieldValue.file fn fb (sLit "application/octet-stream"))] from by
    unfold applyWrite dictSet
    rw [if_neg hnf]
    rfl]
  rw [List.foldlM_cons]
  rw [processPart_of_write _ closeSeg none partWrite_closeSeg, exceptBindOk]
  rw [show applyWrite [(n, FieldValue.text t),
      (sLit "file", FieldValue.file fn fb (sLit "application/octet-stream"))] none =
    [(n, FieldValue.text t),
     (sLit "file", FieldValue.file fn fb (sLit "application/octet-stream"))] from rfl]
  rfl

/-- Witness for C1: the canonical body with boundary `XYZ`, text field
`payload` holding `hello world`, and file `a.pdf` with content `%PDF`
decodes to exactly those two entries. -/
theorem claim_C1_witness :
    parse_multipart_form_data
      (twoPartBody (sLit "XYZ") (sLit "payload") (sLit "hello world")
        (sLit "a.pdf") [0x25, 0x50, 0x44, 0x46])
      (sLit "multipart/form-data; boundary=XYZ") =
      .ok [(sLit "payload", .text (sLit "hello world")),
           (sLit "file", .file (sLit "a.pdf") [0x25, 0x50, 0x44, 0x46]
             (sLit "application/octet-stream"))] :=
  claim_C1_two_part_roundtrip _ _ _ _ _ _ (by decide) (by decide) (by decide)
    (by decide) (by decide) (by decide) (by decide) (by decide) (by decide)
    (by decide) (by decide) (by decide) (by decide) (by decide) (by decide)

end Multipart

namespace Multipart

open PyOps Utf8

/-- C2 (amended): with a boundary successfully extracted from the
Content-Type, the decoder never fails with the missing-boundary error; the
only error that can escape is the UTF-8 decode error a text field's
non-UTF-8 body raises at line 129 — every other anomaly merely skips the
offending part. -/
theorem claim_C2_skip_or_unicode (body : List Nat) (ct B : PyStr)
    (hb : extractBoundary ct = some B) :
    (∃ r, parse_multipart_form_data body ct = .ok r) ∨
      parse_multipart_form_data body ct = .error .unicodeDecode := by
  cases hp : parse_multipart_form_data body ct with
  | ok r => exact Or.inl ⟨r, rfl⟩
  | error e =>
    right
    have hp2 := hp
    unfold parse_multipart_form_data at hp2
    rw [hb] at hp2
    have he : e = .unicodeDecode := foldlM_processPart_error _ _ _ hp2
    rw [he]

/-- Counterexample to C2 as stated: the Content-Type carries a boundary,
yet the decoder raises (a `UnicodeDecodeError`) on a body whose text part
holds the invalid byte 0xff. -/
theorem claim_C2_counterexample :
    (extractBoundary (sLit "multipart/form-data; boundary=B")).isSome = true ∧
    parse_multipart_form_data bodyUnicode
      (sLit "multipart/form-data; boundary=B") = .error .unicodeDecode :=
  ⟨by decide, by decide⟩

/-- Witness for C2 (amended) at the concrete invalid-UTF-8 body. -/
theorem claim_C2_witness :
    (∃ r, parse_multipart_form_data bodyUnicode
      (sLit "multipart/form-data; boundary=B") = .ok r) ∨
    parse_multipart_form_data bodyUnicode
      (sLit "multipart/form-data; boundary=B") = .error .unicodeDecode :=
  claim_C2_skip_or_unicode bodyUnicode _ (sLit "B") (by decide)

/-- C3 (amended): the decoder first looks for `\r\n\r\n` and, failing
that, for `\n\n`; a segment containing neither separator is skipped
silently, contributing no entry while leaving the accumulated result
unchanged. -/
theorem claim_C3_separator_fallback_skip (d : Dict) (part : List Nat)
    (h1 : hasSub [0x0d, 0x0a, 0x0d, 0x0a] part = false)
    (h2 : hasSub [0x0a, 0x0a] part = false) :
    processPart d part = .ok d := by
  have hs1 : splitFirst [0x0d, 0x0a, 0x0d, 0x0a] part = none := by
    cases hs : splitFirst [0x0d, 0x0a, 0x0d, 0x0a] part
    · rfl
    · unfold hasSub at h1
      rw [hs] at h1
      exact absurd h1 (by simp)
  have hs2 : splitFirst [0x0a, 0x0a] part = none := by
    cases hs : splitFirst [0x0a, 0x0a] part
    · rfl
    · unfold hasSub at h2
      rw [hs] at h2
      exact absurd h2 (by simp)
  have hw : partWrite part = .ok none := by
    unfold partWrite
    rw [hs1, hs2]
    split
    · rfl
    · rfl
  rw [processPart_of_write d part none hw]
  rfl

/-- Counterexample to C3 as stated: a body in which `\r\n\r\n` occurs
nowhere still decodes a field, because the part's headers end with the
bare-linefeed separator `\n\n` that the code accepts as a fallback. -/
theorem claim_C3_counterexample :
    hasSub [0x0d, 0x0a, 0x0d, 0x0a] bodyLfOnly = false ∧
    parse_multipart_form_data bodyLfOnly
      (sLit "multipart/form-data; boundary=B") =
      .ok [(sLit "a", .text (sLit "hello"))] :=
  ⟨by decide, by decide⟩

/-- Witness for C3 (amended): a one-byte segment with no separator is
skipped. -/
theorem claim_C3_witness : processPart [] [0x78] = .ok [] :=
  claim_C3_separator_fallback_skip [] [0x78] (by decide) (by decide)

/-- C4: when no `;`-separated segment of the Content-Type starts (after
stripping) with `boundary=`, the decoder raises the missing-boundary
error, independently of the body — no body parsing can influence the
result. -/
theorem claim_C4_missing_boundary (body : List Nat) (ct : PyStr)
    (h : ∀ seg ∈ pySplit [';'] ct,
      (sLit "boundary=").isPrefixOf (pyStrip seg) = false) :
    parse_multipart_form_data body ct = .error .missingBoundary := by
  have hf : (pySplit [';'] ct).find?
      (fun seg => (sLit "boundary=").isPrefixOf (pyStrip seg)) = none :=
    List.find?_eq_none.mpr (fun x hx => by rw [h x hx]; simp)
  unfold parse_multipart_form_data extractBoundary
  rw [hf]

/-- Witness for C4: a bare `multipart/form-data` Content-Type raises the
missing-boundary error. -/
theorem claim_C4_witness :
    parse_multipart_form_data [] (sLit "multipart/form-data") =
      .error .missingBoundary :=
  claim_C4_missing_boundary [] _ (by decide)

/-- C8: a segment that is empty, whitespace-only, or whose stripped form is
the two-dash terminator is discarded, leaving the accumulated mapping
unchanged — the preamble and the closing boundary marker never produce a
spurious entry. -/
theorem claim_C8_marker_segments_skipped (d : Dict) (part : List Nat)
    (h : bstrip part = [] ∨ bstrip part = [0x2d, 0x2d]) :
    processPart d part = .ok d := by
  have hw : partWrite part = .ok none := by
    unfold partWrite
    rw [if_pos h]
  rw [processPart_of_write d part none hw]
  rfl

/-- Witness for C8: the closing-marker segment ` --\r\n` is discarded. -/
theorem claim_C8_witness :
    processPart [(sLit "a", FieldValue.text (sLit "b"))]
      [0x20, 0x2d, 0x2d, 0x0d, 0x0a] =
      .ok [(sLit "a", FieldValue.text (sLit "b"))] :=
  claim_C8_marker_segments_skipped _ _ (by decide)

end Multipart

namespace UsersDb

theorem findRow_map_upd (tbl : UsersTable) (e e' : String)
    (upd : UserRow → UserRow) (hupd : ∀ r, (upd r).email = r.email) :
    findRow (tbl.map (fun r => if r.email = e then upd r else r)) e' =
      (findRow tbl e').map (fun r => if r.email = e then upd r else r) := by
  induction tbl with
  | nil => rfl
  | cons r rest ih =>
    rw [List.map_cons]
    unfold findRow
    by_cases hre : r.email = e'
    · have hmap : ((if r.email = e then upd r else r).email = e') := by
        split
        · rw [hupd]; exact hre
        · exact hre
      rw [@List.find?_cons_of_pos UserRow (fun r => decide (r.email = e'))
        (if r.email = e then upd r else r)
        (rest.map (fun r => if r.email = e then upd r else r))
        (decide_eq_true hmap)]
      rw [@List.find?_cons_of_pos UserRow (fun r => decide (r.email = e'))
        r rest (decide_eq_true hre)]
      rfl
    · have hmap : ¬ ((if r.email = e then upd r else r).email = e') := by
        split
        · rw [hupd]; exact hre
        · exact hre
      rw [@List.find?_cons_of_neg UserRow (fun r => decide (r.email = e'))
        (if r.email = e then upd r else r)
        (rest.map (fun r => if r.email = e then upd r else r))
        (by simpa using hmap)]
      rw [@List.find?_cons_of_neg UserRow (fun r => decide (r.email = e'))
        r rest (by simpa using hre)]
      exact ih

theorem truthyStr_of_ne (e : String) (h : e ≠ "") :
    truthyStr (some e) = true := by
  show (!e.isEmpty) = true
  cases hb : e.isEmpty with
  | false => rfl
  | true => exact absurd ((String.isEmpty_iff e).mp hb) h

theorem coalesce_fetch_self (o : Option String) :
    coalesce (match o with
      | some existingId => if !existingId.isEmpty then some existingId else none
      | none => none) o = o := by
  cases o with
  | none => rfl
  | some x =>
    show coalesce (if (!x.isEmpty) = true then some x else none) (some x) = some x
    cases hxe : x.isEmpty with
    | false =>
      rw [if_pos (by decide)]
      rfl
    | true =>
      have hq := (String.isEmpty_iff x).mp hxe
      subst hq
      decide

/-- C6 (amended): `handle_user_login` upserts keyed on the email — rows
with other emails are untouched — and on conflict the stored
`salesforce_lead_id` is preserved unless a non-null, non-empty id is
supplied: a null incoming id leaves the stored id unchanged, a non-empty
incoming id replaces it, and an empty-string id (falsy in Python) is
treated like null and also preserves the stored id. -/
theorem claim_C6_upsert_lead_semantics (tbl : UsersTable) (data : LoginData)
    (now : Nat) (e : String) (row : UserRow)
    (he : data.email = some e) (hne : e ≠ "")
    (hrow : findRow tbl e = some row) :
    ((data.salesforceLeadId = none ∨ data.salesforceLeadId = some "") →
      ((findRow (handle_user_login tbl data now).1 e).bind
        (fun r => r.salesforceLeadId)) = row.salesforceLeadId) ∧
    (∀ v, data.salesforceLeadId = some v → v ≠ "" →
      ((findRow (handle_user_login tbl data now).1 e).bind
        (fun r => r.salesforceLeadId)) = some v) ∧
    (∀ e', e' ≠ e → findRow (handle_user_login tbl data now).1 e' =
      findRow tbl e') := by
  have hrow' : tbl.find? (fun r => decide (r.email = e)) = some row := hrow
  have hrowe : row.email = e := by
    have hp := List.find?_some hrow'
    simpa using hp
  have hmain : ∀ leadId : Option String,
      ((findRow (upsertUserQuery tbl data.firstName data.lastName data.provider
        e leadId now) e).bind (fun r => r.salesforceLeadId)) =
        coalesce leadId row.salesforceLeadId ∧
      (∀ e', e' ≠ e → findRow (upsertUserQuery tbl data.firstName data.lastName
        data.provider e leadId now) e' = findRow tbl e') := by
    intro leadId
    unfold upsertUserQuery
    rw [if_pos (by rw [hrow]; rfl)]
    constructor
    · rw [findRow_map_upd tbl e e (fun r =>
        { email := r.email, firstName := data.firstName,
          lastName := data.lastName, provider := data.provider,
          salesforceLeadId := coalesce leadId r.salesforceLeadId,
          lastLoginAt := now, createdAt := r.createdAt,
          updatedAt := r.updatedAt }) (fun r => rfl), hrow]
      rw [Option.map_some']
      rw [if_pos hrowe]
      rfl
    · intro e' he'
      rw [findRow_map_upd tbl e e' (fun r =>
        { email := r.email, firstName := data.firstName,
          lastName := data.lastName, provider := data.provider,
          salesforceLeadId := coalesce leadId r.salesforceLeadId,
          lastLoginAt := now, createdAt := r.createdAt,
          updatedAt := r.updatedAt }) (fun r => rfl)]
      cases hr' : findRow tbl e' with
      | none => rfl
      | some r' =>
        have hr'2 : tbl.find? (fun r => decide (r.email = e')) = some r' := hr'
        have hr'e : r'.email = e' := by
          have hp := List.find?_some hr'2
          simpa using hp
        rw [Option.map_some']
        rw [if_neg (by rw [hr'e]; exact he')]
  have hunfold : ∀ leadId0 : Option String, data.salesforceLeadId = leadId0 →
      handle_user_login tbl data now =
        (upsertUserQuery tbl data.firstName data.lastName data.provider e
          (if truthyStr leadId0 then leadId0
           else
             match fetchExistingSalesforceLeadId tbl e with
             | some existingId =>
               if !existingId.isEmpty then some existingId else none
             | none => none) now,
         (findRow (upsertUserQuery tbl data.firstName data.lastName
           data.provider e
           (if truthyStr leadId0 then leadId0
            else
              match fetchExistingSalesforceLeadId tbl e with
              | some existingId =>
                if !existingId.isEmpty then some existingId else none
              | none => none) now) e).bind (fun r => r.salesforceLeadId)) := by
    intro leadId0 hl
    unfold handle_user_login
    rw [he, truthyStr_of_ne e hne]
    rw [if_neg (show ¬ ((!true) = true) from by simp)]
    dsimp only
    rw [hl]
    rw [show (some e).getD "" = e from rfl]
  have hfetch : fetchExistingSalesforceLeadId tbl e = row.salesforceLeadId := by
    unfold fetchExistingSalesforceLeadId
    rw [hrow]
    rfl
  refine ⟨?_, ?_, ?_⟩
  · intro hnull
    rcases hnull with hl | hl
    · rw [hunfold none hl]
      dsimp only
      rw [(hmain _).1, hfetch]
      rw [show truthyStr none = false from rfl]
      rw [if_neg (show ¬ (false = true) from by simp)]
      exact coalesce_fetch_self row.salesforceLeadId
    · rw [hunfold (some "") hl]
      dsimp only
      rw [(hmain _).1, hfetch]
      rw [show truthyStr (some "") = false from by decide]
      rw [if_neg (show ¬ (false = true) from by simp)]
      exact coalesce_fetch_self row.salesforceLeadId
  · intro v hl hv
    rw [hunfold (some v) hl]
    dsimp only
    rw [(hmain _).1]
    rw [truthyStr_of_ne v hv]
    rw [if_pos rfl]
    rfl
  · intro e' he'
    rw [hunfold data.salesforceLeadId rfl]
    dsimp only
    exact (hmain _).2 e' he'

/-- Counterexample to C6 as stated: the incoming lead id `""` is non-null,
yet the stored id `L1` is kept rather than replaced, because the handler
treats the falsy empty string like a missing id. -/
theorem claim_C6_counterexample :
    ((findRow (handle_user_login
      [⟨"u@x", none, none, none, some "L1", 0, 0, 0⟩]
      ⟨none, none, some "u@x", none, some ""⟩ 5).1 "u@x").bind
        (fun r => r.salesforceLeadId)) = some "L1" ∧
    (some "L1" : Option String) ≠ some "" :=
  ⟨by decide, by decide⟩

/-- Witness for C6 (amended): with stored id `L1`, a null incoming id
preserves `L1`. -/
theorem claim_C6_witness :
    ((findRow (handle_user_login
      [⟨"u@x", none, none, none, some "L1", 0, 0, 0⟩]
      ⟨none, none, some "u@x", none, none⟩ 5).1 "u@x").bind
        (fun r => r.salesforceLeadId)) = some "L1" :=
  (claim_C6_upsert_lead_semantics
    [⟨"u@x", none, none, none, some "L1", 0, 0, 0⟩]
    ⟨none, none, some "u@x", none, none⟩ 5 "u@x"
    ⟨"u@x", none, none, none, some "L1", 0, 0, 0⟩
    (by decide) (by decide) (by decide)).1 (Or.inl rfl)

end UsersDb

namespace Multipart

open PyOps Utf8

/-- C5 (amended): for a non-skipped part whose headers parse to the given
disposition pair, classification follows the code's priority with Python
truthiness: a non-empty filename makes the part the file field under the
fixed key `file`, with raw stripped body bytes and a content type
defaulting to `application/octet-stream`; otherwise a non-empty field name
makes it a UTF-8 text field under that name; otherwise (both absent or
empty) the part is dropped. An empty-string filename or name is falsy and
does not select its branch. -/
theorem claim_C5_classification (part headersRaw content : List Nat)
    (hs1 : bstrip part ≠ []) (hs2 : bstrip part ≠ [0x2d, 0x2d])
    (hsplit : splitFirst [0x0d, 0x0a, 0x0d, 0x0a] part =
      some (headersRaw, content))
    (fieldName filename : Option PyStr)
    (hdisp : parseDisposition (dictGetD (parseHeaders headersRaw)
      (sLit "content-disposition") []) = (fieldName, filename)) :
    (∀ f, filename = some f → f ≠ [] →
      partWrite part = .ok (some (sLit "file",
        .file f (rstripP isCRLFDashByte content)
          (dictGetD (parseHeaders headersRaw) (sLit "content-type")
            (sLit "application/octet-stream"))))) ∧
    (truthyOpt filename = false → ∀ n s, fieldName = some n → n ≠ [] →
      utf8DecodeStrict (rstripP isSpaceByte (rstripP isCRLFDashByte content)) =
        some s →
      partWrite part = .ok (some (n, .text s))) ∧
    (truthyOpt filename = false → truthyOpt fieldName = false →
      partWrite part = .ok none) := by
  have hbase : partWrite part =
      (if truthyOpt filename then
        .ok (some (sLit "file",
          .file (filename.getD []) (rstripP isCRLFDashByte content)
            (dictGetD (parseHeaders headersRaw) (sLit "content-type")
              (sLit "application/octet-stream"))))
      else if truthyOpt fieldName then
        match utf8DecodeStrict (rstripP isSpaceByte
          (rstripP isCRLFDashByte content)) with
        | some s => .ok (some (fieldName.getD [], .text s))
        | none => .error .unicodeDecode
      else .ok none) := by
    unfold partWrite
    rw [if_neg (fun hcon => hcon.elim hs1 hs2)]
    rw [hsplit]
    dsimp only
    rw [hdisp]
  refine ⟨?_, ?_, ?_⟩
  · intro f hf hfne
    subst hf
    rw [hbase]
    rw [if_pos (show truthyOpt (some f) = true from by
      cases f with
      | nil => exact absurd rfl hfne
      | cons a l => rfl)]
    rfl
  · intro hft n s hn hnne hdec
    subst hn
    rw [hbase]
    rw [if_neg (show ¬ truthyOpt filename = true from by rw [hft]; simp)]
    rw [if_pos (show truthyOpt (some n) = true from by
      cases n with
      | nil => exact absurd rfl hnne
      | cons a l => rfl)]
    rw [hdec]
    rfl
  · intro hft hnt
    rw [hbase]
    rw [if_neg (show ¬ truthyOpt filename = true from by rw [hft]; simp)]
    rw [if_neg (show ¬ truthyOpt fieldName = true from by rw [hnt]; simp)]

set_option maxRecDepth 40000 in
/-- Counterexample to C5 as stated: a part declaring `name="a"` and the
empty filename `filename=""` does declare a filename (the disposition
parse yields `some ""`), yet the decoder stores the part as a text field
under `a` and the mapping has no `file` entry, because the empty string is
falsy. -/
theorem claim_C5_counterexample :
    (parseDisposition (sLit "form-data; name=\"a\"; filename=\"\"")).2 =
      some [] ∧
    parse_multipart_form_data bodyEmptyFilename
      (sLit "multipart/form-data; boundary=B") =
      .ok [(sLit "a", .text (sLit "hi"))] ∧
    dictGet [(sLit "a", FieldValue.text (sLit "hi"))] (sLit "file") = none :=
  ⟨by decide, by decide, by decide⟩

set_option maxRecDepth 40000 in
/-- Witness for C5 (amended): a part with filename `cv.pdf` is stored
under the fixed `file` key regardless of its declared name `f1`. -/
theorem claim_C5_witness :
    partWrite filePartExample = .ok (some (sLit "file",
      .file (sLit "cv.pdf") (rstripP isCRLFDashByte fileContentExample)
        (dictGetD (parseHeaders fileHeadersExample) (sLit "content-type")
          (sLit "application/octet-stream")))) :=
  (claim_C5_classification filePartExample fileHeadersExample
    fileContentExample (by decide) (by decide) (by decide)
    (some (sLit "f1")) (some (sLit "cv.pdf")) (by decide)).1
    (sLit "cv.pdf") rfl (by decide)

/-- C10: in any successful decode the only file-shaped values sit under the
fixed key `file`, the result's keys are pairwise distinct (so at most one
file entry exists), and the value at any key is exactly the one written by
the last segment in body order that writes that key — later parts
overwrite earlier ones, including a text part named `file` overwriting a
file entry. -/
theorem claim_C10_last_write_wins (body : List Nat) (ct B : PyStr) (r : Dict)
    (ws : List (Option (PyStr × FieldValue)))
    (hb : extractBoundary ct = some B)
    (hp : parse_multipart_form_data body ct = .ok r)
    (hw : (pySplit (sepBytes B) body).mapM partWrite = .ok ws) :
    (∀ kv ∈ r, FieldValue.isFile kv.2 = true → kv.1 = sLit "file") ∧
    (r.map Prod.fst).Nodup ∧
    (∀ k, dictGet r k = lastWrite ws k) := by
  unfold parse_multipart_form_data at hp
  rw [hb] at hp
  dsimp only at hp
  rw [show encodePy ('-' :: '-' :: B) = sepBytes B from rfl] at hp
  obtain ⟨ws', hm, hr⟩ := foldlM_processPart_ok _ _ _ hp
  have hws : ws = ws' := by
    rw [hm] at hw
    exact (Except.ok.inj hw).symm
  subst hws
  subst hr
  refine ⟨?_, ?_, ?_⟩
  · intro kv hkv hf
    refine foldl_applyWrite_file_key ws ?_ []
      (fun kv2 hkv2 => absurd hkv2 (List.not_mem_nil _)) kv hkv hf
    intro w hw0 k v hwkv hfile
    obtain ⟨p, hp0, hpw⟩ := mapM_partWrite_mem _ _ hw w hw0
    exact partWrite_file_key p k v (hwkv ▸ hpw) hfile
  · exact foldl_applyWrite_nodup ws [] (by simp)
  · intro k
    rw [dictGet_foldl_applyWrite ws [] k]
    cases lastWrite ws k <;> rfl

set_option maxRecDepth 80000 in
/-- Witness for C10: in a body whose file part is followed by a text part
named `file`, the decoded entry at `file` is the later text write. -/
theorem claim_C10_witness :
    dictGet [(sLit "file", FieldValue.text (sLit "zz"))] (sLit "file") =
      lastWrite
        [none,
         some (sLit "file", FieldValue.file (sLit "a.pdf") [0x50, 0x44, 0x46]
           (sLit "application/octet-stream")),
         some (sLit "file", FieldValue.text (sLit "zz")),
         none] (sLit "file") :=
  (claim_C10_last_write_wins bodyOverwrite
    (sLit "multipart/form-data; boundary=B") (sLit "B")
    [(sLit "file", FieldValue.text (sLit "zz"))]
    [none,
     some (sLit "file", FieldValue.file (sLit "a.pdf") [0x50, 0x44, 0x46]
       (sLit "application/octet-stream")),
     some (sLit "file", FieldValue.text (sLit "zz")),
     none]
    (by decide) (by decide) (by decide)).2.2 (sLit "file")

end Multipart

namespace Upload

open PyOps Multipart

/-- C7: when the decoded form holds a file entry whose lowercased filename
extension is outside the allow-list, the upload route answers 400 and
performs no object-storage effect — neither the S3 upload nor the
presigned-URL call happens. -/
theorem claim_C7_extension_rejected (md : Dict) (fn : PyStr)
    (content : List Nat) (ctype : PyStr)
    (hfile : dictGet md (sLit "file") = some (.file fn content ctype))
    (hext : ¬ pyLower (splitext fn).2 ∈ allowedExtensions) :
    uploadRoute md = (400, []) := by
  unfold uploadRoute
  dsimp only
  rw [hfile]
  rw [show truthyField (some (FieldValue.file fn content ctype)) = true from rfl]
  rw [if_neg (show ¬ ((!true) = true) from by simp)]
  by_cases hpay : (!truthyField (dictGet md (sLit "payload"))) = true
  · rw [if_pos hpay]
  · rw [if_neg hpay]
    dsimp only
    rw [if_pos hext]

/-- Witness for C7: a form with `resume.txt` and a payload is rejected
with 400 and an empty effect list. -/
theorem claim_C7_witness :
    uploadRoute
      [(sLit "file", FieldValue.file (sLit "resume.txt") [0x61]
         (sLit "text/plain")),
       (sLit "payload", FieldValue.text (sLit "p"))] = (400, []) :=
  claim_C7_extension_rejected _ (sLit "resume.txt") [0x61] (sLit "text/plain")
    (by decide) (by decide)

end Upload

namespace PyOps

theorem isPrefixOf_self_append {α : Type} [BEq α] [LawfulBEq α] (l z : List α) :
    l.isPrefixOf (l ++ z) = true :=
  List.isPrefixOf_iff_prefix.mpr (List.prefix_append l z)

end PyOps

namespace Multipart

open PyOps Utf8

theorem extractBoundary_quoted (v : PyStr) (hsc : (';' : Char) ∉ v) :
    extractBoundary (sLit "multipart/form-data; boundary=\"" ++ v ++ sLit "\"") =
      (if (stripQuotes v).isEmpty then none else some (stripQuotes v)) := by
  unfold extractBoundary
  rw [show sLit "multipart/form-data; boundary=\"" ++ v ++ sLit "\"" =
    sLit "multipart/form-data" ++ [';'] ++ (sLit " boundary=\"" ++ (v ++ ['"']))
    from rfl]
  rw [pySplit_append [';'] (sLit "multipart/form-data") _ (by decide) (by decide)]
  rw [pySplit_noOccur [';'] _ (noOccur_singleton _ _ (by
    intro hmem
    rcases List.mem_append.mp hmem with h | h
    · exact absurd h (by decide)
    · rcases List.mem_append.mp h with h2 | h2
      · exact hsc h2
      · exact absurd h2 (by decide)))]
  have hstripseg : pyStrip (sLit " boundary=\"" ++ (v ++ ['"'])) =
      sLit "boundary=\"" ++ (v ++ ['"']) := by
    rw [show sLit " boundary=\"" ++ (v ++ ['"']) =
      ' ' :: (sLit "boundary=\"" ++ (v ++ ['"'])) from rfl]
    refine pyStrip_space _ 'b' (sLit "oundary=\"" ++ (v ++ ['"'])) rfl
      (by decide) ?_
    rw [show sLit "boundary=\"" ++ (v ++ ['"']) =
      (sLit "boundary=\"" ++ v) ++ ['"'] from by rw [List.append_assoc]]
    exact rstripP_append_neg _ _ '"' (by decide)
  rw [@List.find?_cons_of_neg PyStr
    (fun seg => (sLit "boundary=").isPrefixOf (pyStrip seg))
    (sLit "multipart/form-data") [sLit " boundary=\"" ++ (v ++ ['"'])]
    (by decide)]
  rw [@List.find?_cons_of_pos PyStr
    (fun seg => (sLit "boundary=").isPrefixOf (pyStrip seg))
    (sLit " boundary=\"" ++ (v ++ ['"'])) []
    (by
      show (sLit "boundary=").isPrefixOf (pyStrip (sLit " boundary=\"" ++ (v ++ ['"']))) = true
      rw [hstripseg]
      rw [show sLit "boundary=\"" ++ (v ++ ['"']) =
        sLit "boundary=" ++ ('"' :: (v ++ ['"'])) from rfl]
      exact isPrefixOf_self_append _ _)]
  dsimp only
  rw [hstripseg]
  rw [show sLit "boundary=\"" ++ (v ++ ['"']) =
    sLit "boundary" ++ ['='] ++ ('"' :: (v ++ ['"'])) from rfl]
  rw [splitFirst_append ['='] (sLit "boundary") ('"' :: (v ++ ['"']))
    (by decide) (by decide)]
  dsimp only
  rw [stripQuotes_wrap]

theorem extractBoundary_unquoted (v : PyStr) (hsc : (';' : Char) ∉ v)
    (hrs : rstripP isPySpace v = v) :
    extractBoundary (sLit "multipart/form-data; boundary=" ++ v) =
      (if (stripQuotes v).isEmpty then none else some (stripQuotes v)) := by
  unfold extractBoundary
  rw [show sLit "multipart/form-data; boundary=" ++ v =
    sLit "multipart/form-data" ++ [';'] ++ (sLit " boundary=" ++ v) from rfl]
  rw [pySplit_append [';'] (sLit "multipart/form-data") _ (by decide) (by decide)]
  rw [pySplit_noOccur [';'] _ (noOccur_singleton _ _ (by
    intro hmem
    rcases List.mem_append.mp hmem with h | h
    · exact absurd h (by decide)
    · exact hsc h))]
  have hstripseg : pyStrip (sLit " boundary=" ++ v) = sLit "boundary=" ++ v := by
    rw [show sLit " boundary=" ++ v = ' ' :: (sLit "boundary=" ++ v) from rfl]
    refine pyStrip_space _ 'b' (sLit "oundary=" ++ v) rfl (by decide) ?_
    exact rstripP_append_of_fixed _ _ _ (by decide) hrs
  rw [@List.find?_cons_of_neg PyStr
    (fun seg => (sLit "boundary=").isPrefixOf (pyStrip seg))
    (sLit "multipart/form-data") [sLit " boundary=" ++ v]
    (by decide)]
  rw [@List.find?_cons_of_pos PyStr
    (fun seg => (sLit "boundary=").isPrefixOf (pyStrip seg))
    (sLit " boundary=" ++ v) []
    (by
      show (sLit "boundary=").isPrefixOf (pyStrip (sLit " boundary=" ++ v)) = true
      rw [hstripseg]
      exact isPrefixOf_self_append _ _)]
  dsimp only
  rw [hstripseg]
  rw [show sLit "boundary=" ++ v = sLit "boundary" ++ ['='] ++ v from rfl]
  rw [splitFirst_append ['='] (sLit "boundary") v (by decide) (by decide)]

end Multipart

namespace Multipart

open PyOps Utf8

theorem parseDisposition_name_quoted (v : PyStr) (hsc : (';' : Char) ∉ v) :
    parseDisposition (sLit "form-data; name=\"" ++ v ++ sLit "\"") =
      (some (stripQuotes v), none) := by
  unfold parseDisposition
  rw [show sLit "form-data; name=\"" ++ v ++ sLit "\"" =
    sLit "form-data" ++ [';'] ++ (sLit " name=\"" ++ (v ++ ['"'])) from rfl]
  rw [pySplit_append [';'] (sLit "form-data") _ (by decide) (by decide)]
  rw [pySplit_noOccur [';'] _ (noOccur_singleton _ _ (by
    intro hmem
    rcases List.mem_append.mp hmem with h | h
    · exact absurd h (by decide)
    · rcases List.mem_append.mp h with h2 | h2
      · exact hsc h2
      · exact absurd h2 (by decide)))]
  rw [List.foldl_cons, List.foldl_cons, List.foldl_nil]
  rw [show dispFold (none, none) (sLit "form-data") = (none, none) from by decide]
  unfold dispFold
  have hstripitem : pyStrip (sLit " name=\"" ++ (v ++ ['"'])) =
      sLit "name=\"" ++ (v ++ ['"']) := by
    rw [show sLit " name=\"" ++ (v ++ ['"']) =
      ' ' :: (sLit "name=\"" ++ (v ++ ['"'])) from rfl]
    refine pyStrip_space _ 'n' (sLit "ame=\"" ++ (v ++ ['"'])) rfl (by decide) ?_
    rw [show sLit "name=\"" ++ (v ++ ['"']) =
      (sLit "name=\"" ++ v) ++ ['"'] from by rw [List.append_assoc]]
    exact rstripP_append_neg _ _ '"' (by decide)
  rw [hstripitem]
  rw [show sLit "name=\"" ++ (v ++ ['"']) =
    sLit "name=" ++ ('"' :: (v ++ ['"'])) from rfl]
  rw [if_pos (isPrefixOf_self_append (sLit "name=") ('"' :: (v ++ ['"'])))]
  rw [show sLit "name=" ++ ('"' :: (v ++ ['"'])) =
    sLit "name" ++ ['='] ++ ('"' :: (v ++ ['"'])) from rfl]
  rw [splitFirst_append ['='] (sLit "name") ('"' :: (v ++ ['"']))
    (by decide) (by decide)]
  simp only [Option.map_some', Option.getD_some]
  rw [stripQuotes_wrap]

theorem parseDisposition_name_unquoted (v : PyStr) (hsc : (';' : Char) ∉ v)
    (hrs : rstripP isPySpace v = v) :
    parseDisposition (sLit "form-data; name=" ++ v) =
      (some (stripQuotes v), none) := by
  unfold parseDisposition
  rw [show sLit "form-data; name=" ++ v =
    sLit "form-data" ++ [';'] ++ (sLit " name=" ++ v) from rfl]
  rw [pySplit_append [';'] (sLit "form-data") _ (by decide) (by decide)]
  rw [pySplit_noOccur [';'] _ (noOccur_singleton _ _ (by
    intro hmem
    rcases List.mem_append.mp hmem with h | h
    · exact absurd h (by decide)
    · exact hsc h))]
  rw [List.foldl_cons, List.foldl_cons, List.foldl_nil]
  rw [show dispFold (none, none) (sLit "form-data") = (none, none) from by decide]
  unfold dispFold
  have hstripitem : pyStrip (sLit " name=" ++ v) = sLit "name=" ++ v := by
    rw [show sLit " name=" ++ v = ' ' :: (sLit "name=" ++ v) from rfl]
    refine pyStrip_space _ 'n' (sLit "ame=" ++ v) rfl (by decide) ?_
    exact rstripP_append_of_fixed _ _ _ (by decide) hrs
  rw [hstripitem]
  rw [if_pos (isPrefixOf_self_append (sLit "name=") v)]
  rw [show sLit "name=" ++ v = sLit "name" ++ ['='] ++ v from rfl]
  rw [splitFirst_append ['='] (sLit "name") v (by decide) (by decide)]
  rfl

theorem parseDisposition_filename_quoted (v : PyStr) (hsc : (';' : Char) ∉ v) :
    parseDisposition (sLit "form-data; filename=\"" ++ v ++ sLit "\"") =
      (none, some (stripQuotes v)) := by
  unfold parseDisposition
  rw [show sLit "form-data; filename=\"" ++ v ++ sLit "\"" =
    sLit "form-data" ++ [';'] ++ (sLit " filename=\"" ++ (v ++ ['"'])) from rfl]
  rw [pySplit_append [';'] (sLit "form-data") _ (by decide) (by decide)]
  rw [pySplit_noOccur [';'] _ (noOccur_singleton _ _ (by
    intro hmem
    rcases List.mem_append.mp hmem with h | h
    · exact absurd h (by decide)
    · rcases List.mem_append.mp h with h2 | h2
      · exact hsc h2
      · exact absurd h2 (by decide)))]
  rw [List.foldl_cons, List.foldl_cons, List.foldl_nil]
  rw [show dispFold (none, none) (sLit "form-data") = (none, none) from by decide]
  unfold dispFold
  have hstripitem : pyStrip (sLit " filename=\"" ++ (v ++ ['"'])) =
      sLit "filename=\"" ++ (v ++ ['"']) := by
    rw [show sLit " filename=\"" ++ (v ++ ['"']) =
      ' ' :: (sLit "filename=\"" ++ (v ++ ['"'])) from rfl]
    refine pyStrip_space _ 'f' (sLit "ilename=\"" ++ (v ++ ['"'])) rfl
      (by decide) ?_
    rw [show sLit "filename=\"" ++ (v ++ ['"']) =
      (sLit "filename=\"" ++ v) ++ ['"'] from by rw [List.append_assoc]]
    exact rstripP_append_neg _ _ '"' (by decide)
  rw [hstripitem]
  rw [if_neg (show ¬ ((sLit "name=").isPrefixOf
      (sLit "filename=\"" ++ (v ++ ['"'])) = true) from by
    rw [show (sLit "name=").isPrefixOf (sLit "filename=\"" ++ (v ++ ['"'])) =
      false from rfl]
    simp)]
  rw [show sLit "filename=\"" ++ (v ++ ['"']) =
    sLit "filename=" ++ ('"' :: (v ++ ['"'])) from rfl]
  rw [if_pos (isPrefixOf_self_append (sLit "filename=") ('"' :: (v ++ ['"'])))]
  rw [show sLit "filename=" ++ ('"' :: (v ++ ['"'])) =
    sLit "filename" ++ ['='] ++ ('"' :: (v ++ ['"'])) from rfl]
  rw [splitFirst_append ['='] (sLit "filename") ('"' :: (v ++ ['"']))
    (by decide) (by decide)]
  simp only [Option.map_some', Option.getD_some]
  rw [stripQuotes_wrap]

theorem parseDisposition_filename_unquoted (v : PyStr) (hsc : (';' : Char) ∉ v)
    (hrs : rstripP isPySpace v = v) :
    parseDisposition (sLit "form-data; filename=" ++ v) =
      (none, some (stripQuotes v)) := by
  unfold parseDisposition
  rw [show sLit "form-data; filename=" ++ v =
    sLit "form-data" ++ [';'] ++ (sLit " filename=" ++ v) from rfl]
  rw [pySplit_append [';'] (sLit "form-data") _ (by decide) (by decide)]
  rw [pySplit_noOccur [';'] _ (noOccur_singleton _ _ (by
    intro hmem
    rcases List.mem_append.mp hmem with h | h
    · exact absurd h (by decide)
    · exact hsc h))]
  rw [List.foldl_cons, List.foldl_cons, List.foldl_nil]
  rw [show dispFold (none, none) (sLit "form-data") = (none, none) from by decide]
  unfold dispFold
  have hstripitem : pyStrip (sLit " filename=" ++ v) = sLit "filename=" ++ v := by
    rw [show sLit " filename=" ++ v = ' ' :: (sLit "filename=" ++ v) from rfl]
    refine pyStrip_space _ 'f' (sLit "ilename=" ++ v) rfl (by decide) ?_
    exact rstripP_append_of_fixed _ _ _ (by decide) hrs
  rw [hstripitem]
  rw [if_neg (show ¬ ((sLit "name=").isPrefixOf
      (sLit "filename=" ++ v) = true) from by
    rw [show (sLit "name=").isPrefixOf (sLit "filename=" ++ v) = false from rfl]
    simp)]
  rw [if_pos (isPrefixOf_self_append (sLit "filename=") v)]
  rw [show sLit "filename=" ++ v = sLit "filename" ++ ['='] ++ v from rfl]
  rw [splitFirst_append ['='] (sLit "filename") v (by decide) (by decide)]
  rfl

end Multipart

namespace Multipart

open PyOps

/-- C9 (amended): for every boundary, field-name and filename value that
contains no segment separator `;` and carries no trailing whitespace,
decoding the double-quoted form yields the same result as decoding the
unquoted form — the wrapping quotes are stripped. A value with trailing
whitespace breaks the equivalence, since the strip of an unquoted segment
removes it while a closing quote protects it. -/
theorem claim_C9_quote_stripping (v : PyStr)
    (hsc : (';' : Char) ∉ v) (hrs : rstripP isPySpace v = v) :
    (extractBoundary (sLit "multipart/form-data; boundary=\"" ++ v ++ sLit "\"") =
      extractBoundary (sLit "multipart/form-data; boundary=" ++ v)) ∧
    (parseDisposition (sLit "form-data; name=\"" ++ v ++ sLit "\"") =
      parseDisposition (sLit "form-data; name=" ++ v)) ∧
    (parseDisposition (sLit "form-data; filename=\"" ++ v ++ sLit "\"") =
      parseDisposition (sLit "form-data; filename=" ++ v)) :=
  ⟨(extractBoundary_quoted v hsc).trans
      (extractBoundary_unquoted v hsc hrs).symm,
   (parseDisposition_name_quoted v hsc).trans
      (parseDisposition_name_unquoted v hsc hrs).symm,
   (parseDisposition_filename_quoted v hsc).trans
      (parseDisposition_filename_unquoted v hsc hrs).symm⟩

/-- Counterexample to C9 as stated: for the boundary value `x ` (with a
trailing space) the quoted form decodes to `x ` while the unquoted form
decodes to `x`, because stripping the unquoted segment eats the trailing
space. -/
theorem claim_C9_counterexample :
    extractBoundary (sLit "multipart/form-data; boundary=\"x \"") =
      some (sLit "x ") ∧
    extractBoundary (sLit "multipart/form-data; boundary=x ") =
      some (sLit "x") ∧
    extractBoundary (sLit "multipart/form-data; boundary=\"x \"") ≠
      extractBoundary (sLit "multipart/form-data; boundary=x ") :=
  ⟨by decide, by decide, by decide⟩

/-- Witness for C9 (amended) at the boundary value `xyz`. -/
theorem claim_C9_witness :
    extractBoundary (sLit "multipart/form-data; boundary=\"xyz\"") =
      extractBoundary (sLit "multipart/form-data; boundary=xyz") :=
  (claim_C9_quote_stripping (sLit "xyz") (by decide) (by decide)).1

end Multipart
